import Mathlib

/-!
Shallow embedding of the BeERS GPU-cluster manager core
(`src/beers/manager/service.py`, `src/beer/manager/beer_db.py`,
`src/beer/manager/api.py`, `src/beer/models.py`).

The durable relational tables (users, workers, gpus, jobs) are modelled as
Lean lists of rows in insertion order; peewee queries become list
operations.  The docker swarm (the orchestration engine) is modelled by the
pieces the manager reads and writes: nodes with live status, services with
their labels, and configs.  Times are `Nat` seconds; JSON blobs are opaque
`String`s.  The `beers.gpus` service label is the single string obtained by
joining the pinned GPU uuids with the separator `#`, split again on `#` at
read time; join and split are modelled character-level (`pyJoin`/`pySplit`)
with exactly Python's `str.join`/`str.split` semantics for a one-character
separator, so a uuid that itself contains `#` aliases at read time just as
it does in the program.
-/

namespace Beers

/-- Enum PermissionLevel from `beer/manager/api.py`: OWNER = 0, ADMIN = 1,
USER = 2 (lower value = more privilege). -/
inductive PermissionLevel where
  | OWNER
  | ADMIN
  | USER
deriving DecidableEq

/-- Numeric value of the enum member. -/
def PermissionLevel.value : PermissionLevel → Nat
  | .OWNER => 0
  | .ADMIN => 1
  | .USER => 2

/-- Evaluation of `higher_permission`: the member at index
`max(0, index(self) - 1)` of `[OWNER, ADMIN, USER]`. -/
def PermissionLevel.higher_permission : PermissionLevel → PermissionLevel
  | .OWNER => .OWNER
  | .ADMIN => .OWNER
  | .USER => .ADMIN

/-- Row of the `users` table (`beer_db.User`).  Column defaults are those of
the peewee model: `username`, `full_name`, `public_ssh_key` default to NULL,
`permission_level` defaults to 2 (USER). -/
structure User where
  id : String
  username : Option String := none
  full_name : Option String := none
  permission_level : Nat := 2
  public_ssh_key : Option String := none
deriving DecidableEq

/-- Row of the `workers` table (`beer_db.Worker`).  `node_id` is the declared
swarm-id column; `Worker.register` never assigns it. -/
structure Worker where
  hostname : String
  node_id : Option String := none
  ip : Option String := none
  local_nfs_root : Option String := none
  info : String := ""
deriving DecidableEq

/-- Row of the `gpus` table (`beer_db.GPU`).  `owner` and `current_job`
default to NULL and are never assigned anywhere in the code. -/
structure GPU where
  worker : String
  uuid : String
  name : String := ""
  index : Nat := 0
  total_memory : Nat := 0
  info : String := ""
  owner : Option String := none
  current_job : Option String := none
deriving DecidableEq

/-- Row of the `jobs` table as written by `job_add` in
`beers/manager/service.py` (`Job.create(name=…, user=…, image=…,
service=service.id, worker_hostname=…, worker_info=…, start_time=…,
expected_end_time=…, gpu=job.gpus[0]["uuid"])`); the primary key is the
service id (`job_list` resolves `Job.get_by_id(service.id)`).  `end_time`
defaults to NULL. -/
structure Job where
  name : String
  user : String
  image : String
  service : String
  worker_hostname : String
  worker_info : String
  start_time : Nat
  expected_end_time : Nat
  end_time : Option Nat := none
  gpu : String
deriving DecidableEq

/-- NvidiaGPU payload (`beer/nvidia.py`). -/
structure NvidiaGPU where
  name : String := ""
  uuid : String
  total_memory : Nat := 0
  index : Nat := 0
  info : String := ""
deriving DecidableEq

/-- WorkerModel payload (`beer/models.py`): no join identity field exists. -/
structure WorkerModel where
  hostname : String
  external_ip : Option String := none
  gpus : List NvidiaGPU := []
  local_nfs_root : Option String := none
  info : String := ""
deriving DecidableEq

/-- RequestUser payload (`beer/models.py`). -/
structure RequestUser where
  user_id : String
  username : Option String := none
  full_name : String := ""
deriving DecidableEq

/-- JobRequestModel payload (`beer/models.py`).  `gpus` is a sequence of
dicts of which only the `"uuid"` entry is ever read; it is embedded as the
list of uuid strings. -/
structure JobRequestModel where
  user_id : String
  image : String
  worker_hostname : String
  expected_duration : Nat
  volume_mount : String := "/data"
  gpus : List String := []
deriving DecidableEq

/-- The durable database: the four tables, rows in insertion order. -/
structure DB where
  users : List User := []
  workers : List Worker := []
  gpus : List GPU := []
  jobs : List Job := []
deriving DecidableEq

/-- A swarm node as read by the manager: hostname, live status fields, role,
and the nfs label written by `add_worker`. -/
structure DockerNode where
  hostname : String
  state : String := "ready"
  availability : String := "active"
  role : String := "worker"
  label_nfs : Option String := none
deriving DecidableEq

/-- A swarm service as created/read by the manager.  `label_gpus` is the
raw `beers.gpus` label string (the pinned uuids joined with `#`); `none`
means the label is absent, so the service is not returned by
`services.list(filters={"label": beers.gpus})`. -/
structure DockerService where
  id : String
  name : String := ""
  image : String := ""
  label_user_id : Option String := none
  label_expire : Option Nat := none
  label_gpus : Option String := none
  constraint_hostname : Option String := none
deriving DecidableEq

/-- A docker config; `in_use` models the engine-side condition that makes
`config.remove()` fail with the "in use by the following service" APIError. -/
structure DockerConfig where
  name : String
  data : String := ""
  in_use : Bool := false
deriving DecidableEq

/-- The orchestration engine's state as seen through the client. -/
structure Docker where
  nodes : List DockerNode := []
  services : List DockerService := []
  configs : List DockerConfig := []
deriving DecidableEq

/-- Whole-system state: durable DB plus live docker state. -/
structure State where
  db : DB
  docker : Docker
deriving DecidableEq

/-! ## Directory-store operations (`beer/manager/beer_db.py`) -/

/-- SELECT … WHERE User.id == user_id, first row. -/
def User.find? (users : List User) (user_id : String) : Option User :=
  users.find? (fun u => u.id == user_id)

/-- Classmethod `User.permission_check`: the user exists and its stored
level is numerically ≤ the required level. -/
def User.permission_check (users : List User) (user_id : String)
    (required_level : Nat) : Bool :=
  match User.find? users user_id with
  | none => false
  | some u => u.permission_level ≤ required_level

/-- Classmethod `User.is_registered`. -/
def User.is_registered (users : List User) (user_id : String) : Bool :=
  (User.find? users user_id).isSome

/-- Classmethod `User.register`: `User.replace(id=…, permission_level=…)`,
i.e. SQLite REPLACE: the conflicting row (same primary key) is deleted and a
fresh row is inserted carrying the column defaults for every column not
named in the statement. -/
def User.register (users : List User) (user_id : String)
    (permission_level : PermissionLevel) : List User :=
  users.filter (fun u => u.id ≠ user_id) ++
    [{ id := user_id, permission_level := permission_level.value }]

/-- Classmethod `User.update_details`: UPDATE username, full_name WHERE id
matches. -/
def User.update_details (users : List User) (user_id : String)
    (username : Option String) (full_name : String) : List User :=
  users.map (fun u =>
    if u.id == user_id then
      { u with username := username, full_name := some full_name }
    else u)

/-- Classmethod `User.having_permission`: rows with level ≤ the bound, in
table order. -/
def User.having_permission (users : List User) (permission_level : Nat) :
    List User :=
  users.filter (fun u => u.permission_level ≤ permission_level)

/-- Classmethod `GPU.register`: create the row only when no row with this
(worker, uuid) exists; an existing row is returned untouched. -/
def GPU.register (db : DB) (gpu_model : NvidiaGPU) (worker_id : String) : DB :=
  match db.gpus.find? (fun g => g.worker == worker_id && g.uuid == gpu_model.uuid) with
  | some _ => db
  | none =>
      { db with
        gpus := db.gpus ++
          [{ worker := worker_id, uuid := gpu_model.uuid,
             name := gpu_model.name, index := gpu_model.index,
             total_memory := gpu_model.total_memory, info := gpu_model.info }] }

/-- Classmethod `Worker.register`: look the hostname up; update ip, info and
local_nfs_root in place when found, otherwise create the row; then register
every reported GPU.  No join identity is consulted and no collision error
exists. -/
def Worker.register (db : DB) (worker_model : WorkerModel) : DB × Worker :=
  match db.workers.find? (fun w => w.hostname == worker_model.hostname) with
  | some w =>
      let w' : Worker :=
        { w with ip := worker_model.external_ip, info := worker_model.info,
                 local_nfs_root := worker_model.local_nfs_root }
      let db1 : DB :=
        { db with workers := db.workers.map (fun x =>
            if x.hostname == worker_model.hostname then w' else x) }
      (worker_model.gpus.foldl (fun d g => GPU.register d g w'.hostname) db1, w')
  | none =>
      let w' : Worker :=
        { hostname := worker_model.hostname, ip := worker_model.external_ip,
          info := worker_model.info,
          local_nfs_root := worker_model.local_nfs_root }
      let db1 : DB := { db with workers := db.workers ++ [w'] }
      (worker_model.gpus.foldl (fun d g => GPU.register d g w'.hostname) db1, w')

/-- Consecutive-run grouping by owning worker, the behaviour of
`itertools.groupby(gpus, key=operator.attrgetter("worker"))`. -/
def groupRuns : List GPU → List (String × List GPU)
  | [] => []
  | g :: rest =>
      match groupRuns rest with
      | [] => [(g.worker, [g])]
      | (k, grp) :: t =>
          if g.worker == k then (k, g :: grp) :: t
          else (g.worker, [g]) :: (k, grp) :: t

/-- Insert one key/value pair with Python-dict semantics: an existing key
keeps its position and its value is overwritten, a new key is appended. -/
def dictUpsert {β : Type} : List (String × β) → String → β → List (String × β)
  | [], k, v => [(k, v)]
  | (k', v') :: t, k, v =>
      if k' == k then (k', v) :: t else (k', v') :: dictUpsert t k v

/-- Build a Python dict from a pair sequence (later duplicate keys
overwrite). -/
def pythonDict {β : Type} (ps : List (String × β)) : List (String × β) :=
  ps.foldl (fun acc p => dictUpsert acc p.1 p.2) []

/-- Classmethod `GPU.by_workers`: select the gpus of the given workers (table
order), group consecutively by worker, and collect into a dict keyed by the
owning worker (peewee model keys compare by primary key = hostname). -/
def GPU.by_workers (worker_ids : List String) (gpus : List GPU) :
    List (String × List GPU) :=
  pythonDict (groupRuns (gpus.filter (fun g => worker_ids.contains g.worker)))

/-! ## The `beers.gpus` label serialization

`job_add` stores `_SERVICE_LABEL_GPU_SEP.join(uuids)` in the service label
and `list_resources` recovers the busy set with `.split(sep)`.  Both are
modelled character-level with Python's exact semantics for a one-character
separator: `"".split(sep) == [""]`, adjacent separators yield empty pieces,
and a uuid containing the separator is torn apart at read time. -/

/-- The label separator `_SERVICE_LABEL_GPU_SEP = "#"`. -/
def sepGPU : Char := '#'

/-- Python `s.split(sep)` on the character list of `s` (one-char `sep`). -/
def splitChars (sep : Char) : List Char → List (List Char)
  | [] => [[]]
  | c :: cs =>
      let r := splitChars sep cs
      if c = sep then [] :: r
      else
        match r with
        | [] => [[c]]
        | h :: t => (c :: h) :: t

/-- Python `sep.join(pieces)` on character lists (one-char `sep`). -/
def joinChars (sep : Char) : List (List Char) → List Char
  | [] => []
  | [x] => x
  | x :: y :: t => x ++ sep :: joinChars sep (y :: t)

/-- Python `s.split(sep)` for strings. -/
def pySplit (sep : Char) (s : String) : List String :=
  (splitChars sep s.data).map (fun cs => ⟨cs⟩)

/-- Python `sep.join(l)` for strings. -/
def pyJoin (sep : Char) (l : List String) : String :=
  ⟨joinChars sep (l.map String.data)⟩

/-! ## Manager answers (`beer/manager/api.py` ReturnCodes plus payloads) -/

/-- A manager response: the ReturnCode together with the data payload the
endpoint attaches to it.  `PY_EXCEPTION` stands for an uncaught Python
exception escaping the handler (peewee DoesNotExist, docker NotFound, …). -/
inductive Answer where
  | READY
  | WORKER_INFO (worker : Worker)
  | DB_ERROR (message : String)
  | DOCKER_ERROR
  | NOT_REGISTERED_admins (admins : String)
  | NOT_REGISTERED_user (user_id : String)
  | PERMISSION_ERROR
  | ALREADY_REGISTERED (user_id : String)
  | REGISTRATION_SUCCESSFUL (user_id : String)
  | KEY_MISSING
  | KEY_IN_USE
  | SET_KEY_SUCCESSFUL
  | KEY_CHECK (is_set : Bool)
  | JOB_REMOVE_OK
  | DISPATCH_OK (service_id : String)
  | JOB_LIST
  | RESOURCES (workers : List String) (gpus : List (String × List GPU))
  | PY_EXCEPTION (what : String)
deriving DecidableEq

/-! ## Service endpoints (`beers/manager/service.py`) -/

/-- Admins string built inside `permission_check` for the NOT_REGISTERED
answer: admins (level ≤ ADMIN) that have a username, formatted and joined
with newlines. -/
def admins_display (users : List User) : String :=
  String.intercalate "\n"
    ((User.having_permission users PermissionLevel.ADMIN.value).filterMap
      (fun a => a.username.map (fun n => "- @" ++ n)))

/-- Helper `permission_check`: refresh the acting user's profile fields,
then fail NOT_REGISTERED (with the admins payload) when a USER-level check
finds the user unregistered, fail PERMISSION_ERROR when the stored level is
insufficient, succeed (`none`) otherwise. -/
def permission_check (s : State) (request_user : RequestUser)
    (required_level : PermissionLevel) : State × Option Answer :=
  let users1 := User.update_details s.db.users request_user.user_id
    request_user.username request_user.full_name
  let s1 : State := { s with db := { s.db with users := users1 } }
  (s1,
    if required_level == .USER && !(User.is_registered users1 request_user.user_id) then
      some (.NOT_REGISTERED_admins (admins_display users1))
    else if !(User.permission_check users1 request_user.user_id required_level.value) then
      some .PERMISSION_ERROR
    else
      none)

/-- Endpoint `/set_permission`.  The code tests
`if not permission_check(...)`: `None` (the success value) is falsy and a
`ManagerAnswer` object (the failure value) is truthy, so the branch
structure below is the code's actual behaviour. -/
def set_permission (s : State) (request_user : RequestUser) (user_id : String)
    (permission_level : PermissionLevel) : State × Answer :=
  let r := permission_check s request_user permission_level.higher_permission
  if r.2.isNone then
    (r.1, .PERMISSION_ERROR)
  else if !(User.is_registered r.1.db.users user_id) then
    (r.1, .NOT_REGISTERED_user user_id)
  else
    ({ r.1 with db := { r.1.db with
        users := User.register r.1.db.users user_id permission_level } },
     .REGISTRATION_SUCCESSFUL user_id)

/-- Endpoint `/register_user`. -/
def register_user (s : State) (request_user : RequestUser) (user_id : String) :
    State × Answer :=
  let r := permission_check s request_user .ADMIN
  match r.2 with
  | some e => (r.1, e)
  | none =>
      if User.is_registered r.1.db.users user_id then
        (r.1, .ALREADY_REGISTERED user_id)
      else
        ({ r.1 with db := { r.1.db with
            users := User.register r.1.db.users user_id .USER } },
         .REGISTRATION_SUCCESSFUL user_id)

/-- Docker config name `beer_ssh-key_{user.id}`. -/
def sshConfigName (user_id : String) : String := "beer_ssh-key_" ++ user_id

/-- Endpoint `/set_ssh_key`: remove any existing config of that name (an
in-use config fails with KEY_IN_USE), create the new config, store the key
on the user row. -/
def set_ssh_key (s : State) (request_user : RequestUser) (ssh_key : String) :
    State × Answer :=
  let r := permission_check s request_user .USER
  match r.2 with
  | some e => (r.1, e)
  | none =>
  match User.find? r.1.db.users request_user.user_id with
  | none => (r.1, .PY_EXCEPTION ("User.get_by_id"))
  | some user =>
      let cname := sshConfigName user.id
      match r.1.docker.configs.find? (fun c => c.name == cname) with
      | some c =>
          if c.in_use then (r.1, .KEY_IN_USE)
          else
            let configs2 := (r.1.docker.configs.filter (fun x => x.name ≠ cname)) ++
              [{ name := cname, data := ssh_key }]
            ({ db := { r.1.db with users := r.1.db.users.map (fun u =>
                  if u.id == user.id then { u with public_ssh_key := some ssh_key } else u) },
               docker := { r.1.docker with configs := configs2 } },
             .SET_KEY_SUCCESSFUL)
      | none =>
          let configs2 := r.1.docker.configs ++ [{ name := cname, data := ssh_key }]
          ({ db := { r.1.db with users := r.1.db.users.map (fun u =>
                if u.id == user.id then { u with public_ssh_key := some ssh_key } else u) },
             docker := { r.1.docker with configs := configs2 } },
           .SET_KEY_SUCCESSFUL)

/-- Endpoint `/check_ssh_key`. -/
def check_ssh_key (s : State) (request_user : RequestUser) : State × Answer :=
  let r := permission_check s request_user .USER
  match r.2 with
  | some e => (r.1, e)
  | none =>
  match User.find? r.1.db.users request_user.user_id with
  | none => (r.1, .PY_EXCEPTION ("User.get_by_id"))
  | some user => (r.1, .KEY_CHECK user.public_ssh_key.isSome)

/-- Endpoint `/job_remove`: permission check, ownership-or-admin check, then
teardown of the external service *first* (`client.services.get(...).remove()`
raises when the service is gone, leaving the row untouched) and only then
`end_time = now` on the Job row. -/
def job_remove (s : State) (request_user : RequestUser) (job_id : String)
    (now : Nat) : State × Answer :=
  let r := permission_check s request_user .USER
  match r.2 with
  | some e => (r.1, e)
  | none =>
  match User.find? r.1.db.users request_user.user_id with
  | none => (r.1, .PY_EXCEPTION ("User.get_by_id"))
  | some user =>
  match r.1.db.jobs.find? (fun j => j.service == job_id) with
  | none => (r.1, .PY_EXCEPTION ("Job.get_by_id"))
  | some job =>
      if job.user == user.id || user.permission_level ≤ PermissionLevel.ADMIN.value then
        if r.1.docker.services.any (fun sv => sv.id == job.service) then
          ({ db := { r.1.db with jobs := r.1.db.jobs.map (fun j =>
                if j.service == job.service then { j with end_time := some now } else j) },
             docker := { r.1.docker with services :=
                r.1.docker.services.filter (fun sv => sv.id ≠ job.service) } },
           .JOB_REMOVE_OK)
        else
          (r.1, .PY_EXCEPTION ("services.get"))
      else
        (r.1, .PERMISSION_ERROR)

/-- Endpoint `/job` (dispatch).  `now` is `time.time()`; `service_id` is the
id docker assigns to the created service.  The service is created before the
`Job.create` call, so the `job.gpus[0]` IndexError on an empty gpu list
leaves the service behind with no Job row. -/
def job_add (s : State) (request_user : RequestUser) (job : JobRequestModel)
    (now : Nat) (service_id : String) : State × Answer :=
  let r := permission_check s request_user .USER
  match r.2 with
  | some e => (r.1, e)
  | none =>
  match r.1.db.workers.find? (fun w => w.hostname == job.worker_hostname) with
  | none => (r.1, .PY_EXCEPTION ("Worker.get_by_id"))
  | some worker =>
  match User.find? r.1.db.users job.user_id with
  | none => (r.1, .PY_EXCEPTION ("User.get_by_id"))
  | some user =>
  if user.public_ssh_key.isNone then (r.1, .KEY_MISSING)
  else
    let expire := now + 3600 * job.expected_duration
    match r.1.docker.configs.find? (fun c => c.name == sshConfigName user.id) with
    | none => (r.1, .KEY_MISSING)
    | some _ =>
        let job_name := job.user_id ++ "_" ++ toString now
        let svc : DockerService :=
          { id := service_id, name := job_name, image := job.image,
            label_user_id := some job.user_id, label_expire := some expire,
            label_gpus := some (pyJoin sepGPU job.gpus),
            constraint_hostname := some worker.hostname }
        let s2 : State :=
          { r.1 with docker := { r.1.docker with services := r.1.docker.services ++ [svc] } }
        match job.gpus with
        | [] => (s2, .PY_EXCEPTION ("IndexError"))
        | g0 :: _ =>
            ({ s2 with db := { s2.db with jobs := s2.db.jobs ++
                [{ name := job_name, user := job.user_id, image := job.image,
                   service := service_id, worker_hostname := job.worker_hostname,
                   worker_info := worker.info, start_time := now,
                   expected_end_time := expire, gpu := g0 }] } },
             .DISPATCH_OK service_id)

/-- Endpoint `/job_list`: read-only apart from the profile refresh. -/
def job_list (s : State) (request_user : RequestUser) : State × Answer :=
  let r := permission_check s request_user .USER
  match r.2 with
  | some e => (r.1, e)
  | none => (r.1, .JOB_LIST)

/-- Busy GPU uuids: the union, over all services carrying the `beers.gpus`
label, of the label string split on `#` (a live placement query, no DB
read). -/
def busy_gpus (services : List DockerService) : List String :=
  ((services.filterMap (fun sv => sv.label_gpus)).map (pySplit sepGPU)).flatten

/-- Hostnames of worker-role nodes whose live status is ready and active. -/
def online_workers (nodes : List DockerNode) : List String :=
  ((nodes.filter (fun n => n.role == "worker")).filter
    (fun n => n.state == "ready" && n.availability == "active")).map
    (fun n => n.hostname)

/-- The resource mapping computed by `list_resources`: the registered gpus
of online workers, grouped per worker, with busy gpus filtered out. -/
def availableResources (s : State) : List (String × List GPU) :=
  let busy := busy_gpus s.docker.services
  (GPU.by_workers (online_workers s.docker.nodes) s.db.gpus).map
    (fun p => (p.1, p.2.filter (fun g => !(busy.contains g.uuid))))

/-- Per-worker available GPU uuids (the identity payload of the answer). -/
def availableUuids (s : State) : List (String × List String) :=
  (availableResources s).map (fun p => (p.1, p.2.map (fun g => g.uuid)))

/-- Endpoint `/list_resources`. -/
def list_resources (s : State) (request_user : RequestUser) : State × Answer :=
  let r := permission_check s request_user .USER
  match r.2 with
  | some e => (r.1, e)
  | none =>
      let res := availableResources r.1
      (r.1, .RESOURCES (res.map (fun p => p.1)) res)

/-- Endpoint `/join`: overwrite the model's external_ip with the request
peer address, register in the DB, then look the node up in the swarm
(absence is a docker error *after* the DB write) and add the nfs label when
a local nfs root was announced. -/
def add_worker (s : State) (worker_model : WorkerModel)
    (client_host : Option String) : State × Answer :=
  let wm1 : WorkerModel := { worker_model with external_ip := client_host }
  let reg := Worker.register s.db wm1
  let s1 : State := { s with db := reg.1 }
  match s1.docker.nodes.find? (fun n => n.hostname == reg.2.hostname) with
  | none => (s1, .DOCKER_ERROR)
  | some _ =>
      match reg.2.local_nfs_root with
      | some root =>
          ({ s1 with docker := { s1.docker with nodes := s1.docker.nodes.map (fun n =>
              if n.hostname == reg.2.hostname then { n with label_nfs := some root } else n) } },
           .WORKER_INFO reg.2)
      | none => (s1, .WORKER_INFO reg.2)

/-- `beer_db.init` starting from empty tables plus the bootstrap owner
registration. -/
def initState (owner_id : String) : State :=
  { db := { users := User.register [] owner_id .OWNER },
    docker := {} }

/-! ## System evolution

One step of the system: any manager endpoint handling one request, or the
environment changing the live node pool (nodes join, leave, or change
status outside the manager).  A dispatched service gets a docker-assigned
id, globally fresh, captured by the side conditions on `jobAdd`. -/

/-- One request/environment step. -/
inductive Step : State → State → Prop where
  | join (s : State) (wm : WorkerModel) (host : Option String) :
      Step s (add_worker s wm host).1
  | setPermission (s : State) (ru : RequestUser) (uid : String)
      (lv : PermissionLevel) : Step s (set_permission s ru uid lv).1
  | registerUser (s : State) (ru : RequestUser) (uid : String) :
      Step s (register_user s ru uid).1
  | setSshKey (s : State) (ru : RequestUser) (key : String) :
      Step s (set_ssh_key s ru key).1
  | checkSshKey (s : State) (ru : RequestUser) :
      Step s (check_ssh_key s ru).1
  | jobAdd (s : State) (ru : RequestUser) (jr : JobRequestModel) (now : Nat)
      (sid : String)
      (hsv : ∀ sv ∈ s.docker.services, sv.id ≠ sid)
      (hjb : ∀ j ∈ s.db.jobs, j.service ≠ sid) :
      Step s (job_add s ru jr now sid).1
  | jobRemove (s : State) (ru : RequestUser) (jid : String) (now : Nat) :
      Step s (job_remove s ru jid now).1
  | jobList (s : State) (ru : RequestUser) :
      Step s (job_list s ru).1
  | listResources (s : State) (ru : RequestUser) :
      Step s (list_resources s ru).1
  | envNodes (s : State) (nodes : List DockerNode) :
      Step s { s with docker := { s.docker with nodes := nodes } }

/-- States the system can be in: reachable from a fresh deployment by
request/environment steps. -/
inductive Reachable : State → Prop where
  | init (owner_id : String) : Reachable (initState owner_id)
  | step {s s' : State} : Reachable s → Step s s' → Reachable s'

/-- The unconditional bookkeeping invariant: job primary keys are unique
and the dormant `current_job` column of every GPU row is NULL. -/
def Inv (s : State) : Prop :=
  (s.db.jobs.map (fun j => j.service)).Nodup ∧
  (∀ g ∈ s.db.gpus, g.current_job = none)

/-- Every active job's pinned GPU uuid appears in the split of a live
service's `beers.gpus` label.  This is the fact the busy-exclusion of
`list_resources` relies on; dispatching a uuid that contains the label
separator `#` breaks it (the uuid is torn apart at read time), so it is an
invariant only of separator-free executions (`ReachableSep`). -/
def CoveredBusy (s : State) : Prop :=
  ∀ j ∈ s.db.jobs, j.end_time = none →
    ∃ sv ∈ s.docker.services, sv.id = j.service ∧
      ∃ lbl, sv.label_gpus = some lbl ∧ j.gpu ∈ pySplit sepGPU lbl

/-- One request/environment step whose dispatch requests pin only
separator-free GPU identifiers (true of every real NVIDIA uuid). -/
inductive StepSep : State → State → Prop where
  | join (s : State) (wm : WorkerModel) (host : Option String) :
      StepSep s (add_worker s wm host).1
  | setPermission (s : State) (ru : RequestUser) (uid : String)
      (lv : PermissionLevel) : StepSep s (set_permission s ru uid lv).1
  | registerUser (s : State) (ru : RequestUser) (uid : String) :
      StepSep s (register_user s ru uid).1
  | setSshKey (s : State) (ru : RequestUser) (key : String) :
      StepSep s (set_ssh_key s ru key).1
  | checkSshKey (s : State) (ru : RequestUser) :
      StepSep s (check_ssh_key s ru).1
  | jobAdd (s : State) (ru : RequestUser) (jr : JobRequestModel) (now : Nat)
      (sid : String)
      (hsv : ∀ sv ∈ s.docker.services, sv.id ≠ sid)
      (hjb : ∀ j ∈ s.db.jobs, j.service ≠ sid)
      (hsep : ∀ u ∈ jr.gpus, sepGPU ∉ u.data) :
      StepSep s (job_add s ru jr now sid).1
  | jobRemove (s : State) (ru : RequestUser) (jid : String) (now : Nat) :
      StepSep s (job_remove s ru jid now).1
  | jobList (s : State) (ru : RequestUser) :
      StepSep s (job_list s ru).1
  | listResources (s : State) (ru : RequestUser) :
      StepSep s (list_resources s ru).1
  | envNodes (s : State) (nodes : List DockerNode) :
      StepSep s { s with docker := { s.docker with nodes := nodes } }

/-- States reachable from a fresh deployment by separator-free requests. -/
inductive ReachableSep : State → Prop where
  | init (owner_id : String) : ReachableSep (initState owner_id)
  | step {s s' : State} : ReachableSep s → StepSep s s' → ReachableSep s'

theorem stepSep_step {s s' : State} (h : StepSep s s') : Step s s' := by
  cases h with
  | join wm host => exact Step.join s wm host
  | setPermission ru uid lv => exact Step.setPermission s ru uid lv
  | registerUser ru uid => exact Step.registerUser s ru uid
  | setSshKey ru key => exact Step.setSshKey s ru key
  | checkSshKey ru => exact Step.checkSshKey s ru
  | jobAdd ru jr now sid hsv hjb hsep => exact Step.jobAdd s ru jr now sid hsv hjb
  | jobRemove ru jid now => exact Step.jobRemove s ru jid now
  | jobList ru => exact Step.jobList s ru
  | listResources ru => exact Step.listResources s ru
  | envNodes nodes => exact Step.envNodes s nodes

theorem reachableSep_reachable {s : State} (h : ReachableSep s) : Reachable s := by
  induction h with
  | init owner_id => exact Reachable.init owner_id
  | step _ hstep ih => exact Reachable.step ih (stepSep_step hstep)

/-! ## Frame lemmas for the directory-store operations -/

theorem permission_check_users (s : State) (ru : RequestUser) (L : PermissionLevel) :
    (permission_check s ru L).1.db.users =
      User.update_details s.db.users ru.user_id ru.username ru.full_name := rfl

theorem permission_check_jobs (s : State) (ru : RequestUser) (L : PermissionLevel) :
    (permission_check s ru L).1.db.jobs = s.db.jobs := rfl

theorem permission_check_gpus (s : State) (ru : RequestUser) (L : PermissionLevel) :
    (permission_check s ru L).1.db.gpus = s.db.gpus := rfl

theorem permission_check_workers (s : State) (ru : RequestUser) (L : PermissionLevel) :
    (permission_check s ru L).1.db.workers = s.db.workers := rfl

theorem permission_check_docker (s : State) (ru : RequestUser) (L : PermissionLevel) :
    (permission_check s ru L).1.docker = s.docker := rfl

theorem User.find?_eq_some_id {users : List User} {x : String} {u : User}
    (h : User.find? users x = some u) : u.id = x := by
  have := List.find?_some h
  simpa using this

theorem User.mem_of_find? {users : List User} {x : String} {u : User}
    (h : User.find? users x = some u) : u ∈ users :=
  List.mem_of_find?_eq_some h

theorem User.find?_map (f : User → User) (hid : ∀ u, (f u).id = u.id)
    (users : List User) (x : String) :
    User.find? (users.map f) x = (User.find? users x).map f := by
  induction users with
  | nil => rfl
  | cons u t ih =>
      unfold User.find? at *
      by_cases h : u.id = x
      · rw [List.map_cons, List.find?_cons_of_pos, List.find?_cons_of_pos]
        · rfl
        · simp [h]
        · simp [hid, h]
      · rw [List.map_cons, List.find?_cons_of_neg, List.find?_cons_of_neg]
        · exact ih
        · simp [h]
        · simp [hid, h]

theorem User.update_details_eq_map (users : List User) (i : String)
    (un : Option String) (fn : String) :
    User.update_details users i un fn = users.map (fun u =>
      if u.id == i then { u with username := un, full_name := some fn } else u) := rfl

theorem User.is_registered_update_details (users : List User) (i : String)
    (un : Option String) (fn : String) (x : String) :
    User.is_registered (User.update_details users i un fn) x =
      User.is_registered users x := by
  unfold User.is_registered
  rw [User.update_details_eq_map, User.find?_map]
  · cases User.find? users x <;> rfl
  · intro u; dsimp only; split <;> rfl

theorem User.permission_check_update_details (users : List User) (i : String)
    (un : Option String) (fn : String) (x : String) (lvl : Nat) :
    User.permission_check (User.update_details users i un fn) x lvl =
      User.permission_check users x lvl := by
  unfold User.permission_check
  rw [User.update_details_eq_map, User.find?_map]
  · cases User.find? users x with
    | none => rfl
    | some u =>
        show decide ((if u.id == i then _ else u).permission_level ≤ lvl) = _
        split <;> rfl
  · intro u; dsimp only; split <;> rfl

theorem GPU.register_users (db : DB) (gm : NvidiaGPU) (wid : String) :
    (GPU.register db gm wid).users = db.users := by
  unfold GPU.register; split <;> rfl

theorem GPU.register_workers (db : DB) (gm : NvidiaGPU) (wid : String) :
    (GPU.register db gm wid).workers = db.workers := by
  unfold GPU.register; split <;> rfl

theorem GPU.register_jobs (db : DB) (gm : NvidiaGPU) (wid : String) :
    (GPU.register db gm wid).jobs = db.jobs := by
  unfold GPU.register; split <;> rfl

theorem GPU.register_gpus (db : DB) (gm : NvidiaGPU) (wid : String) :
    ∃ new, (GPU.register db gm wid).gpus = db.gpus ++ new ∧
      ∀ g ∈ new, g.current_job = none := by
  unfold GPU.register
  split
  · exact ⟨[], by simp⟩
  · refine ⟨_, rfl, ?_⟩
    intro g hg
    simp at hg
    subst hg
    rfl

theorem foldl_register_users (gs : List NvidiaGPU) (db : DB) (wid : String) :
    (gs.foldl (fun d g => GPU.register d g wid) db).users = db.users := by
  induction gs generalizing db with
  | nil => rfl
  | cons g t ih => rw [List.foldl_cons, ih, GPU.register_users]

theorem foldl_register_workers (gs : List NvidiaGPU) (db : DB) (wid : String) :
    (gs.foldl (fun d g => GPU.register d g wid) db).workers = db.workers := by
  induction gs generalizing db with
  | nil => rfl
  | cons g t ih => rw [List.foldl_cons, ih, GPU.register_workers]

theorem foldl_register_jobs (gs : List NvidiaGPU) (db : DB) (wid : String) :
    (gs.foldl (fun d g => GPU.register d g wid) db).jobs = db.jobs := by
  induction gs generalizing db with
  | nil => rfl
  | cons g t ih => rw [List.foldl_cons, ih, GPU.register_jobs]

theorem foldl_register_gpus (gs : List NvidiaGPU) (db : DB) (wid : String) :
    ∃ new, (gs.foldl (fun d g => GPU.register d g wid) db).gpus = db.gpus ++ new ∧
      ∀ g ∈ new, g.current_job = none := by
  induction gs generalizing db with
  | nil => exact ⟨[], by simp⟩
  | cons g t ih =>
      rw [List.foldl_cons]
      obtain ⟨n1, h1, h1c⟩ := ih (GPU.register db g wid)
      obtain ⟨n0, h0, h0c⟩ := GPU.register_gpus db g wid
      refine ⟨n0 ++ n1, ?_, ?_⟩
      · rw [h1, h0, List.append_assoc]
      · intro x hx
        rcases List.mem_append.1 hx with h | h
        · exact h0c x h
        · exact h1c x h

theorem Worker.register_users_unchanged (db : DB) (wm : WorkerModel) :
    (Worker.register db wm).1.users = db.users := by
  unfold Worker.register
  split <;> simp [foldl_register_users]

theorem Worker.register_jobs_unchanged (db : DB) (wm : WorkerModel) :
    (Worker.register db wm).1.jobs = db.jobs := by
  unfold Worker.register
  split <;> simp [foldl_register_jobs]

theorem Worker.register_gpus_appended (db : DB) (wm : WorkerModel) :
    ∃ new, (Worker.register db wm).1.gpus = db.gpus ++ new ∧
      ∀ g ∈ new, g.current_job = none := by
  unfold Worker.register
  split
  · exact foldl_register_gpus _ _ _
  · exact foldl_register_gpus _ _ _

/-! ## Frame lemmas for the endpoints -/

theorem add_worker_jobs (s : State) (wm : WorkerModel) (host : Option String) :
    (add_worker s wm host).1.db.jobs = s.db.jobs := by
  unfold add_worker
  dsimp only
  (repeat' split) <;> simp [Worker.register_jobs_unchanged]

theorem add_worker_services (s : State) (wm : WorkerModel) (host : Option String) :
    (add_worker s wm host).1.docker.services = s.docker.services := by
  unfold add_worker
  dsimp only
  (repeat' split) <;> rfl

theorem add_worker_gpus (s : State) (wm : WorkerModel) (host : Option String) :
    ∃ new, (add_worker s wm host).1.db.gpus = s.db.gpus ++ new ∧
      ∀ g ∈ new, g.current_job = none := by
  unfold add_worker
  dsimp only
  (repeat' split) <;> exact Worker.register_gpus_appended _ _

theorem set_permission_jobs (s : State) (ru : RequestUser) (uid : String)
    (lv : PermissionLevel) : (set_permission s ru uid lv).1.db.jobs = s.db.jobs := by
  unfold set_permission
  dsimp only
  (repeat' split) <;> rfl

theorem set_permission_gpus (s : State) (ru : RequestUser) (uid : String)
    (lv : PermissionLevel) : (set_permission s ru uid lv).1.db.gpus = s.db.gpus := by
  unfold set_permission
  dsimp only
  (repeat' split) <;> rfl

theorem set_permission_docker (s : State) (ru : RequestUser) (uid : String)
    (lv : PermissionLevel) : (set_permission s ru uid lv).1.docker = s.docker := by
  unfold set_permission
  dsimp only
  (repeat' split) <;> rfl

theorem register_user_jobs (s : State) (ru : RequestUser) (uid : String) :
    (register_user s ru uid).1.db.jobs = s.db.jobs := by
  unfold register_user
  dsimp only
  (repeat' split) <;> rfl

theorem register_user_gpus (s : State) (ru : RequestUser) (uid : String) :
    (register_user s ru uid).1.db.gpus = s.db.gpus := by
  unfold register_user
  dsimp only
  (repeat' split) <;> rfl

theorem register_user_docker (s : State) (ru : RequestUser) (uid : String) :
    (register_user s ru uid).1.docker = s.docker := by
  unfold register_user
  dsimp only
  (repeat' split) <;> rfl

theorem set_ssh_key_jobs (s : State) (ru : RequestUser) (key : String) :
    (set_ssh_key s ru key).1.db.jobs = s.db.jobs := by
  unfold set_ssh_key
  dsimp only
  (repeat' split) <;> rfl

theorem set_ssh_key_gpus (s : State) (ru : RequestUser) (key : String) :
    (set_ssh_key s ru key).1.db.gpus = s.db.gpus := by
  unfold set_ssh_key
  dsimp only
  (repeat' split) <;> rfl

theorem set_ssh_key_services (s : State) (ru : RequestUser) (key : String) :
    (set_ssh_key s ru key).1.docker.services = s.docker.services := by
  unfold set_ssh_key
  dsimp only
  (repeat' split) <;> rfl

theorem set_ssh_key_nodes (s : State) (ru : RequestUser) (key : String) :
    (set_ssh_key s ru key).1.docker.nodes = s.docker.nodes := by
  unfold set_ssh_key
  dsimp only
  (repeat' split) <;> rfl

theorem check_ssh_key_fst (s : State) (ru : RequestUser) :
    (check_ssh_key s ru).1 = (permission_check s ru .USER).1 := by
  unfold check_ssh_key
  dsimp only
  (repeat' split) <;> rfl

theorem job_list_fst (s : State) (ru : RequestUser) :
    (job_list s ru).1 = (permission_check s ru .USER).1 := by
  unfold job_list
  dsimp only
  (repeat' split) <;> rfl

theorem list_resources_fst (s : State) (ru : RequestUser) :
    (list_resources s ru).1 = (permission_check s ru .USER).1 := by
  unfold list_resources
  dsimp only
  (repeat' split) <;> rfl

theorem permission_check_snd_some (s : State) (ru : RequestUser)
    (L : PermissionLevel) (a : Answer) (h : (permission_check s ru L).2 = some a) :
    a = .PERMISSION_ERROR ∨ ∃ str, a = .NOT_REGISTERED_admins str := by
  unfold permission_check at h
  dsimp only at h
  split at h
  · exact .inr ⟨_, (Option.some.inj h).symm⟩
  · split at h
    · exact .inl (Option.some.inj h).symm
    · cases h

/-- The service record `job_add` creates for a successful dispatch. -/
def dispatchService (jr : JobRequestModel) (now : Nat) (sid : String)
    (worker : Worker) : DockerService :=
  { id := sid, name := jr.user_id ++ "_" ++ toString now, image := jr.image,
    label_user_id := some jr.user_id,
    label_expire := some (now + 3600 * jr.expected_duration),
    label_gpus := some (pyJoin sepGPU jr.gpus),
    constraint_hostname := some worker.hostname }

/-- The ledger row `job_add` creates for a successful dispatch. -/
def dispatchJob (jr : JobRequestModel) (now : Nat) (sid : String)
    (worker : Worker) (g0 : String) : Job :=
  { name := jr.user_id ++ "_" ++ toString now, user := jr.user_id,
    image := jr.image, service := sid, worker_hostname := jr.worker_hostname,
    worker_info := worker.info, start_time := now,
    expected_end_time := now + 3600 * jr.expected_duration, gpu := g0 }

theorem job_add_ok {s : State} {ru : RequestUser} {jr : JobRequestModel}
    {now : Nat} {sid sid' : String}
    (h : (job_add s ru jr now sid).2 = .DISPATCH_OK sid') :
    sid' = sid ∧ (permission_check s ru .USER).2 = none ∧
    ∃ worker g0 rest,
      s.db.workers.find? (fun w => w.hostname == jr.worker_hostname) = some worker ∧
      jr.gpus = g0 :: rest ∧
      job_add s ru jr now sid =
        ({ db := { users := User.update_details s.db.users ru.user_id
                     ru.username ru.full_name,
                   workers := s.db.workers, gpus := s.db.gpus,
                   jobs := s.db.jobs ++ [dispatchJob jr now sid worker g0] },
           docker := { nodes := s.docker.nodes,
                       services := s.docker.services ++ [dispatchService jr now sid worker],
                       configs := s.docker.configs } },
         .DISPATCH_OK sid) := by
  unfold job_add at h ⊢
  dsimp only at h ⊢
  split at h
  · rename_i e heq
    dsimp only at h
    subst h
    rcases permission_check_snd_some _ _ _ _ heq with h' | ⟨str, h'⟩ <;> cases h'
  · rename_i heq
    split at h
    · simp at h
    · rename_i worker hW
      split at h
      · simp at h
      · rename_i user hU
        split at h
        · simp at h
        · rename_i hkey
          split at h
          · simp at h
          · rename_i cfg hC
            split at h
            · simp at h
            · rename_i g0 rest hG
              dsimp only at h
              refine ⟨(Answer.DISPATCH_OK.inj h).symm, heq, worker, g0, rest, hW, hG, ?_⟩
              simp only [heq, hW, hU, hC, hG, dispatchService, dispatchJob]
              rw [if_neg hkey]
              rfl

theorem job_add_cases (s : State) (ru : RequestUser) (jr : JobRequestModel)
    (now : Nat) (sid : String) :
    ((job_add s ru jr now sid).1.db.jobs = s.db.jobs ∧
      ((job_add s ru jr now sid).1.docker.services = s.docker.services ∨
        ∃ svc, (job_add s ru jr now sid).1.docker.services = s.docker.services ++ [svc])) ∨
    (job_add s ru jr now sid).2 = .DISPATCH_OK sid := by
  unfold job_add
  dsimp only
  (repeat' split) <;>
    first
      | exact .inl ⟨rfl, .inl rfl⟩
      | exact .inl ⟨rfl, .inr ⟨_, rfl⟩⟩
      | exact .inr rfl

theorem job_remove_ok {s : State} {ru : RequestUser} {jid : String} {now : Nat}
    (h : (job_remove s ru jid now).2 = .JOB_REMOVE_OK) :
    ∃ user job,
      User.find? (User.update_details s.db.users ru.user_id ru.username
        ru.full_name) ru.user_id = some user ∧
      s.db.jobs.find? (fun j => j.service == jid) = some job ∧
      (job.user == user.id || user.permission_level ≤ PermissionLevel.ADMIN.value) = true ∧
      s.docker.services.any (fun sv => sv.id == job.service) = true ∧
      job_remove s ru jid now =
        ({ db := { users := User.update_details s.db.users ru.user_id
                     ru.username ru.full_name,
                   workers := s.db.workers, gpus := s.db.gpus,
                   jobs := s.db.jobs.map (fun j =>
                     if j.service == job.service then { j with end_time := some now }
                     else j) },
           docker := { nodes := s.docker.nodes,
                       services := s.docker.services.filter
                         (fun sv => sv.id ≠ job.service),
                       configs := s.docker.configs } },
         .JOB_REMOVE_OK) := by
  unfold job_remove at h ⊢
  dsimp only at h ⊢
  split at h
  · rename_i e heq
    dsimp only at h
    subst h
    rcases permission_check_snd_some _ _ _ _ heq with h' | ⟨str, h'⟩ <;> cases h'
  · rename_i heq
    split at h
    · simp at h
    · rename_i user hU
      split at h
      · simp at h
      · rename_i job hJ
        split at h
        · rename_i hperm
          split at h
          · rename_i hany
            refine ⟨user, job, hU, hJ, by simpa using hperm, hany, ?_⟩
            try simp only [heq, hU, hJ]
            try rw [if_pos hperm, if_pos hany]
            rfl
          · simp at h
        · simp at h

theorem job_remove_cases (s : State) (ru : RequestUser) (jid : String) (now : Nat) :
    ((job_remove s ru jid now).1.db.jobs = s.db.jobs ∧
      (job_remove s ru jid now).1.docker.services = s.docker.services) ∨
    (job_remove s ru jid now).2 = .JOB_REMOVE_OK := by
  unfold job_remove
  dsimp only
  (repeat' split) <;>
    first
      | exact .inl ⟨rfl, rfl⟩
      | exact .inr rfl

theorem job_add_gpus (s : State) (ru : RequestUser) (jr : JobRequestModel)
    (now : Nat) (sid : String) :
    (job_add s ru jr now sid).1.db.gpus = s.db.gpus := by
  unfold job_add
  dsimp only
  (repeat' split) <;> rfl

theorem job_remove_gpus (s : State) (ru : RequestUser) (jid : String) (now : Nat) :
    (job_remove s ru jid now).1.db.gpus = s.db.gpus := by
  unfold job_remove
  dsimp only
  (repeat' split) <;> rfl

/-! ## Preservation of the busy-bookkeeping invariant -/

theorem inv_of_frames {s s' : State}
    (hjobs : s'.db.jobs = s.db.jobs)
    (hgpus : s'.db.gpus = s.db.gpus ∨
      ∃ new, s'.db.gpus = s.db.gpus ++ new ∧ ∀ g ∈ new, g.current_job = none)
    (h : Inv s) : Inv s' := by
  obtain ⟨h2, h3⟩ := h
  refine ⟨?_, ?_⟩
  · rw [hjobs]; exact h2
  · intro g hg
    rcases hgpus with he | ⟨new, he, hnew⟩
    · rw [he] at hg; exact h3 g hg
    · rw [he] at hg
      rcases List.mem_append.1 hg with hg' | hg'
      · exact h3 g hg'
      · exact hnew g hg'

theorem inv_permission_check (s : State) (ru : RequestUser) (L : PermissionLevel)
    (h : Inv s) : Inv (permission_check s ru L).1 :=
  inv_of_frames (permission_check_jobs s ru L)
    (Or.inl (permission_check_gpus s ru L)) h

theorem inv_job_add (s : State) (ru : RequestUser) (jr : JobRequestModel)
    (now : Nat) (sid : String)
    (hjb : ∀ j ∈ s.db.jobs, j.service ≠ sid)
    (h : Inv s) : Inv (job_add s ru jr now sid).1 := by
  rcases job_add_cases s ru jr now sid with ⟨hjobs, -⟩ | hok
  · exact inv_of_frames hjobs (Or.inl (job_add_gpus s ru jr now sid)) h
  · obtain ⟨-, -, worker, g0, rest, hW, hG, heq⟩ := job_add_ok hok
    obtain ⟨h2, h3⟩ := h
    rw [heq]
    refine ⟨?_, ?_⟩
    · dsimp only
      rw [List.map_append]
      rw [List.nodup_append]
      refine ⟨h2, by simp [dispatchJob], ?_⟩
      intro a ha hb
      have hb' : a = sid := by simpa [dispatchJob] using hb
      subst hb'
      obtain ⟨j, hj, hja⟩ := List.mem_map.1 ha
      exact hjb j hj hja
    · exact h3

theorem inv_job_remove (s : State) (ru : RequestUser) (jid : String) (now : Nat)
    (h : Inv s) : Inv (job_remove s ru jid now).1 := by
  rcases job_remove_cases s ru jid now with ⟨hjobs, -⟩ | hok
  · exact inv_of_frames hjobs (Or.inl (job_remove_gpus s ru jid now)) h
  · obtain ⟨user, job, hU, hJ, hperm, hany, heq⟩ := job_remove_ok hok
    obtain ⟨h2, h3⟩ := h
    rw [heq]
    refine ⟨?_, ?_⟩
    · dsimp only
      rw [List.map_map]
      have hco : ((fun j => j.service) ∘ (fun j =>
          if j.service == job.service then { j with end_time := some now } else j)) =
          fun j : Job => j.service := by
        funext j; simp only [Function.comp]; split <;> rfl
      rw [hco]
      exact h2
    · exact h3

theorem inv_init (owner_id : String) : Inv (initState owner_id) := by
  refine ⟨?_, ?_⟩
  · simp [initState]
  · intro g hg
    simp [initState] at hg

theorem inv_step {s s' : State} (h : Inv s) (hs : Step s s') : Inv s' := by
  cases hs with
  | join wm host =>
      exact inv_of_frames (add_worker_jobs s wm host)
        (Or.inr (add_worker_gpus s wm host)) h
  | setPermission ru uid lv =>
      exact inv_of_frames (set_permission_jobs s ru uid lv)
        (Or.inl (set_permission_gpus s ru uid lv)) h
  | registerUser ru uid =>
      exact inv_of_frames (register_user_jobs s ru uid)
        (Or.inl (register_user_gpus s ru uid)) h
  | setSshKey ru key =>
      exact inv_of_frames (set_ssh_key_jobs s ru key)
        (Or.inl (set_ssh_key_gpus s ru key)) h
  | checkSshKey ru =>
      rw [check_ssh_key_fst]
      exact inv_permission_check s ru .USER h
  | jobAdd ru jr now sid hsv hjb =>
      exact inv_job_add s ru jr now sid hjb h
  | jobRemove ru jid now =>
      exact inv_job_remove s ru jid now h
  | jobList ru =>
      rw [job_list_fst]
      exact inv_permission_check s ru .USER h
  | listResources ru =>
      rw [list_resources_fst]
      exact inv_permission_check s ru .USER h
  | envNodes nodes =>
      exact inv_of_frames rfl (Or.inl rfl) h

theorem reachable_inv {s : State} (h : Reachable s) : Inv s := by
  induction h with
  | init owner_id => exact inv_init owner_id
  | step _ hstep ih => exact inv_step ih hstep

/-! ## The label-coverage invariant of separator-free executions -/

theorem splitChars_no_sep (sep : Char) (x : List Char) (h : sep ∉ x) :
    splitChars sep x = [x] := by
  induction x with
  | nil => rfl
  | cons c cs ih =>
      rw [List.mem_cons] at h
      push_neg at h
      simp only [splitChars]
      rw [ih h.2]
      rw [if_neg (fun hc => h.1 hc.symm)]

theorem splitChars_append_sep (sep : Char) (x rest : List Char) (h : sep ∉ x) :
    splitChars sep (x ++ sep :: rest) = x :: splitChars sep rest := by
  induction x with
  | nil =>
      rw [List.nil_append]
      simp only [splitChars]
      simp
  | cons c x' ih =>
      rw [List.mem_cons] at h
      push_neg at h
      rw [List.cons_append]
      simp only [splitChars]
      rw [ih h.2]
      rw [if_neg (fun hc => h.1 hc.symm)]

theorem splitChars_joinChars (sep : Char) (l : List (List Char)) (hne : l ≠ [])
    (h : ∀ x ∈ l, sep ∉ x) : splitChars sep (joinChars sep l) = l := by
  induction l with
  | nil => cases hne rfl
  | cons x t ih =>
      cases t with
      | nil =>
          show splitChars sep (joinChars sep [x]) = [x]
          unfold joinChars
          exact splitChars_no_sep sep x (h x (List.mem_cons_self _ _))
      | cons y t' =>
          show splitChars sep (x ++ sep :: joinChars sep (y :: t')) = x :: y :: t'
          rw [splitChars_append_sep sep x _ (h x (List.mem_cons_self _ _))]
          rw [ih (by simp) (fun z hz => h z (List.mem_cons_of_mem _ hz))]

theorem pySplit_pyJoin (l : List String) (hne : l ≠ [])
    (h : ∀ u ∈ l, sepGPU ∉ u.data) : pySplit sepGPU (pyJoin sepGPU l) = l := by
  unfold pySplit pyJoin
  have hd : (⟨joinChars sepGPU (l.map String.data)⟩ : String).data =
      joinChars sepGPU (l.map String.data) := rfl
  rw [hd, splitChars_joinChars sepGPU (l.map String.data)
    (by simpa using hne)
    (fun x hx => by
      obtain ⟨u, hu, hux⟩ := List.mem_map.1 hx
      rw [← hux]
      exact h u hu)]
  rw [List.map_map]
  have hmid : l.map ((fun cs => (⟨cs⟩ : String)) ∘ String.data) = l.map id :=
    List.map_congr_left (fun u _ => rfl)
  rw [hmid, List.map_id]

theorem covered_of_frames {s s' : State}
    (hjobs : s'.db.jobs = s.db.jobs)
    (hservices : s'.docker.services = s.docker.services ∨
      ∃ svc, s'.docker.services = s.docker.services ++ [svc])
    (h : CoveredBusy s) : CoveredBusy s' := by
  intro j hj hact
  rw [hjobs] at hj
  obtain ⟨sv, hsv, hrest⟩ := h j hj hact
  refine ⟨sv, ?_, hrest⟩
  rcases hservices with he | ⟨svc, he⟩
  · rw [he]; exact hsv
  · rw [he]; exact List.mem_append_left _ hsv

theorem covered_permission_check (s : State) (ru : RequestUser)
    (L : PermissionLevel) (h : CoveredBusy s) :
    CoveredBusy (permission_check s ru L).1 :=
  covered_of_frames (permission_check_jobs s ru L)
    (Or.inl (congrArg Docker.services (permission_check_docker s ru L))) h

theorem covered_job_add (s : State) (ru : RequestUser) (jr : JobRequestModel)
    (now : Nat) (sid : String)
    (hsep : ∀ u ∈ jr.gpus, sepGPU ∉ u.data)
    (h : CoveredBusy s) : CoveredBusy (job_add s ru jr now sid).1 := by
  rcases job_add_cases s ru jr now sid with ⟨hjobs, hservices⟩ | hok
  · exact covered_of_frames hjobs hservices h
  · obtain ⟨-, -, worker, g0, rest, hW, hG, heq⟩ := job_add_ok hok
    rw [heq]
    intro j hj hact
    dsimp only at hj ⊢
    rcases List.mem_append.1 hj with hj' | hj'
    · obtain ⟨sv, hsv', hrest⟩ := h j hj' hact
      exact ⟨sv, List.mem_append_left _ hsv', hrest⟩
    · have hjd : j = dispatchJob jr now sid worker g0 := by simpa using hj'
      subst hjd
      refine ⟨dispatchService jr now sid worker,
        List.mem_append_right _ (by simp), rfl, pyJoin sepGPU jr.gpus, rfl, ?_⟩
      show g0 ∈ pySplit sepGPU (pyJoin sepGPU jr.gpus)
      rw [hG, pySplit_pyJoin (g0 :: rest) (by simp) (hG ▸ hsep)]
      exact List.mem_cons_self _ _

theorem covered_job_remove (s : State) (ru : RequestUser) (jid : String)
    (now : Nat) (h : CoveredBusy s) : CoveredBusy (job_remove s ru jid now).1 := by
  rcases job_remove_cases s ru jid now with ⟨hjobs, hservices⟩ | hok
  · exact covered_of_frames hjobs (Or.inl hservices) h
  · obtain ⟨user, job, hU, hJ, hperm, hany, heq⟩ := job_remove_ok hok
    rw [heq]
    intro j hj hact
    dsimp only at hj ⊢
    obtain ⟨j0, hj0, hj0e⟩ := List.mem_map.1 hj
    by_cases hsvc : (j0.service == job.service) = true
    · rw [if_pos hsvc] at hj0e
      rw [← hj0e] at hact
      cases hact
    · rw [if_neg hsvc] at hj0e
      subst hj0e
      obtain ⟨sv, hsv', hid, hrest⟩ := h j0 hj0 hact
      refine ⟨sv, List.mem_filter.2 ⟨hsv', ?_⟩, hid, hrest⟩
      have hne : j0.service ≠ job.service := by simpa using hsvc
      simp [hid, hne]

theorem covered_step {s s' : State} (h : CoveredBusy s) (hs : StepSep s s') :
    CoveredBusy s' := by
  cases hs with
  | join wm host =>
      exact covered_of_frames (add_worker_jobs s wm host)
        (Or.inl (add_worker_services s wm host)) h
  | setPermission ru uid lv =>
      exact covered_of_frames (set_permission_jobs s ru uid lv)
        (Or.inl (congrArg Docker.services (set_permission_docker s ru uid lv))) h
  | registerUser ru uid =>
      exact covered_of_frames (register_user_jobs s ru uid)
        (Or.inl (congrArg Docker.services (register_user_docker s ru uid))) h
  | setSshKey ru key =>
      exact covered_of_frames (set_ssh_key_jobs s ru key)
        (Or.inl (set_ssh_key_services s ru key)) h
  | checkSshKey ru =>
      rw [check_ssh_key_fst]
      exact covered_permission_check s ru .USER h
  | jobAdd ru jr now sid hsv hjb hsep =>
      exact covered_job_add s ru jr now sid hsep h
  | jobRemove ru jid now =>
      exact covered_job_remove s ru jid now h
  | jobList ru =>
      rw [job_list_fst]
      exact covered_permission_check s ru .USER h
  | listResources ru =>
      rw [list_resources_fst]
      exact covered_permission_check s ru .USER h
  | envNodes nodes =>
      exact covered_of_frames rfl (Or.inl rfl) h

theorem reachableSep_covered {s : State} (h : ReachableSep s) : CoveredBusy s := by
  induction h with
  | init owner_id =>
      intro j hj
      simp [initState] at hj
  | step _ hstep ih => exact covered_step ih hstep

/-! ## Facts about the resource-catalog computation -/

theorem mem_busy_gpus {services : List DockerService} {sv : DockerService}
    {lbl : String} {u : String} (hsv : sv ∈ services)
    (hl : sv.label_gpus = some lbl) (hu : u ∈ pySplit sepGPU lbl) :
    u ∈ busy_gpus services := by
  unfold busy_gpus
  exact List.mem_flatten.2 ⟨pySplit sepGPU lbl,
    List.mem_map_of_mem _ (List.mem_filterMap.2 ⟨sv, hsv, hl⟩), hu⟩

theorem available_not_busy {s : State} {w : String} {gl : List GPU} {g : GPU}
    (hmem : (w, gl) ∈ availableResources s) (hg : g ∈ gl) :
    g.uuid ∉ busy_gpus s.docker.services := by
  unfold availableResources at hmem
  obtain ⟨p, hp, heq⟩ := List.mem_map.1 hmem
  have hgl : gl = p.2.filter
      (fun g => !((busy_gpus s.docker.services).contains g.uuid)) := by
    have := congrArg Prod.snd heq
    simpa using this.symm
  rw [hgl] at hg
  have := (List.mem_filter.1 hg).2
  intro hmem'
  have hc : (busy_gpus s.docker.services).contains g.uuid = true :=
    List.elem_eq_true_of_mem hmem'
  rw [hc] at this
  cases this

theorem list_resources_ok {s : State} {ru : RequestUser} {ws : List String}
    {res : List (String × List GPU)}
    (h : (list_resources s ru).2 = .RESOURCES ws res) :
    res = availableResources s := by
  unfold list_resources at h
  dsimp only at h
  split at h
  · rename_i e heq
    dsimp only at h
    subst h
    rcases permission_check_snd_some _ _ _ _ heq with h' | ⟨str, h'⟩ <;> cases h'
  · have hres := (Answer.RESOURCES.inj h).2
    have : availableResources (permission_check s ru .USER).1 = availableResources s := rfl
    rw [← hres, this]

/-- C1 (amended): on every state reachable by requests whose pinned GPU
identifiers do not contain the label separator `#` (true of every real
NVIDIA uuid), the per-worker GPU lists returned by `list_resources` never
contain the pinned GPU of any active (`end_time = NULL`) job.  The
restriction is forced by the code: dispatched uuids are `#`-joined into one
`beers.gpus` label and re-split at read time, so a uuid containing `#`
aliases into fragments and defeats the busy exclusion — see the
counterexample. -/
theorem C1_active_job_gpus_not_listed {s : State} (hs : ReachableSep s)
    (ru : RequestUser) (ws : List String) (res : List (String × List GPU))
    (hans : (list_resources s ru).2 = .RESOURCES ws res)
    (w : String) (gl : List GPU) (hmem : (w, gl) ∈ res)
    (j : Job) (hj : j ∈ s.db.jobs) (hact : j.end_time = none)
    (g : GPU) (hg : g ∈ gl) : g.uuid ≠ j.gpu := by
  have hres := list_resources_ok hans
  subst hres
  obtain ⟨sv, hsv, hid, lbl, hl, hgpu⟩ := reachableSep_covered hs j hj hact
  have hbusy : j.gpu ∈ busy_gpus s.docker.services := mem_busy_gpus hsv hl hgpu
  have hnb := available_not_busy hmem hg
  intro hcontra
  rw [hcontra] at hnb
  exact hnb hbusy

/-! ## A concrete execution used by the witnesses: a fresh deployment, one
node joining with two GPUs, one user registered with an ssh key, one job
dispatched pinning GPU AAA. -/

/-- The bootstrap owner's request identity. -/
def ownerRU : RequestUser :=
  { user_id := "owner", username := some "boss", full_name := "Boss" }

/-- The registered end user's request identity. -/
def u1RU : RequestUser :=
  { user_id := "u1", username := some "uone", full_name := "U One" }

/-- First GPU reported by the worker. -/
def gpuA : NvidiaGPU := { uuid := "AAA", name := "gA", index := 0, total_memory := 16 }

/-- Second GPU reported by the worker. -/
def gpuB : NvidiaGPU := { uuid := "BBB", name := "gB", index := 1, total_memory := 16 }

/-- The worker join payload. -/
def wm1 : WorkerModel := { hostname := "h1", gpus := [gpuA, gpuB], info := "i" }

/-- The swarm node for the worker, ready/active. -/
def node1 : DockerNode := { hostname := "h1" }

/-- The dispatch request pinning GPU AAA. -/
def jr1 : JobRequestModel :=
  { user_id := "u1", image := "img", worker_hostname := "h1",
    expected_duration := 2, gpus := ["AAA"] }

/-- Fresh deployment. -/
def st0 : State := initState "owner"

/-- After the node appears in the swarm. -/
def st1 : State := { st0 with docker := { st0.docker with nodes := [node1] } }

/-- After the worker registers. -/
def st2 : State := (add_worker st1 wm1 (some "9.9.9.9")).1

/-- After the owner registers user u1. -/
def st3 : State := (register_user st2 ownerRU "u1").1

/-- After u1 stores an ssh key. -/
def st4 : State := (set_ssh_key st3 u1RU "KEY").1

/-- After u1 dispatches a job pinning GPU AAA. -/
def st5 : State := (job_add st4 u1RU jr1 100 "svc1").1

/-- The ledger row created by the dispatch in the concrete execution. -/
def job1 : Job :=
  { name := "u1_100", user := "u1", image := "img", service := "svc1",
    worker_hostname := "h1", worker_info := "i", start_time := 100,
    expected_end_time := 7300, end_time := none, gpu := "AAA" }

/-- The still-free GPU row of the concrete execution. -/
def gpuRowB : GPU := { worker := "h1", uuid := "BBB", name := "gB", index := 1, total_memory := 16 }

theorem st4_reachableSep : ReachableSep st4 :=
  ReachableSep.step
    (ReachableSep.step
      (ReachableSep.step
        (ReachableSep.step (ReachableSep.init "owner")
          (StepSep.envNodes st0 [node1]))
        (StepSep.join st1 wm1 (some "9.9.9.9")))
      (StepSep.registerUser st2 ownerRU "u1"))
    (StepSep.setSshKey st3 u1RU "KEY")

theorem st5_reachableSep : ReachableSep st5 :=
  ReachableSep.step st4_reachableSep
    (StepSep.jobAdd st4 u1RU jr1 100 "svc1" (by decide) (by decide) (by decide))

theorem st5_reachable : Reachable st5 :=
  reachableSep_reachable st5_reachableSep

theorem C1_witness :
    (list_resources st5 u1RU).2 = .RESOURCES ["h1"] [("h1", [gpuRowB])] ∧
    job1 ∈ st5.db.jobs ∧ job1.end_time = none ∧ gpuRowB.uuid ≠ job1.gpu :=
  ⟨by decide, by decide, by decide,
    C1_active_job_gpus_not_listed st5_reachableSep u1RU ["h1"] [("h1", [gpuRowB])]
      (by decide) "h1" [gpuRowB] (by decide) job1 (by decide) (by decide)
      gpuRowB (by decide)⟩

/-! ## The C1 counterexample: a dispatch pinning the uuid `A#B`.  The label
stores `#.join(["A#B"]) = "A#B"` and the read-time split yields the busy
set `{"A", "B"}`, so the GPU row with uuid `A#B` stays listed while its
job is active — the program double-books. -/

/-- A GPU whose (unvalidated) uuid contains the label separator. -/
def gpuAB : NvidiaGPU := { uuid := "A#B", name := "gX", index := 0, total_memory := 16 }

/-- The worker join payload announcing that GPU. -/
def wmAB : WorkerModel := { hostname := "hx", gpus := [gpuAB], info := "i" }

/-- The swarm node for that worker, ready/active. -/
def nodeX : DockerNode := { hostname := "hx" }

/-- The dispatch request pinning the `A#B` uuid. -/
def jrAB : JobRequestModel :=
  { user_id := "u1", image := "img", worker_hostname := "hx",
    expected_duration := 2, gpus := ["A#B"] }

/-- Fresh deployment for the counterexample run. -/
def cx0 : State := initState "owner"

/-- After the node appears in the swarm. -/
def cx1 : State := { cx0 with docker := { cx0.docker with nodes := [nodeX] } }

/-- After the worker registers with the `A#B` GPU. -/
def cx2 : State := (add_worker cx1 wmAB (some "9.9.9.9")).1

/-- After the owner registers user u1. -/
def cx3 : State := (register_user cx2 ownerRU "u1").1

/-- After u1 stores an ssh key. -/
def cx4 : State := (set_ssh_key cx3 u1RU "KEY").1

/-- After u1 dispatches a job pinning `A#B`. -/
def cx5 : State := (job_add cx4 u1RU jrAB 100 "svcX").1

theorem cx5_reachable : Reachable cx5 :=
  Reachable.step
    (Reachable.step
      (Reachable.step
        (Reachable.step
          (Reachable.step (Reachable.init "owner") (Step.envNodes cx0 [nodeX]))
          (Step.join cx1 wmAB (some "9.9.9.9")))
        (Step.registerUser cx2 ownerRU "u1"))
      (Step.setSshKey cx3 u1RU "KEY"))
    (Step.jobAdd cx4 u1RU jrAB 100 "svcX" (by decide) (by decide))

/-- The `A#B` GPU row as stored by the registration. -/
def gpuRowAB : GPU := { worker := "hx", uuid := "A#B", name := "gX", index := 0, total_memory := 16 }

/-- The active ledger row pinning `A#B`. -/
def jobAB : Job :=
  { name := "u1_100", user := "u1", image := "img", service := "svcX",
    worker_hostname := "hx", worker_info := "i", start_time := 100,
    expected_end_time := 7300, end_time := none, gpu := "A#B" }

/-- C1 counterexample: in a reachable state a job pinning the uuid `A#B`
is active (`end_time = NULL`), yet `list_resources` still lists the GPU
with that very uuid as available — the split of the `#`-joined label
produces the busy set with `A` and `B` instead of `A#B`, so the claimed
disjointness fails on the code as written. -/
theorem C1_counterexample :
    Reachable cx5 ∧
    (list_resources cx5 u1RU).2 = .RESOURCES ["hx"] [("hx", [gpuRowAB])] ∧
    jobAB ∈ cx5.db.jobs ∧ jobAB.end_time = none ∧ gpuRowAB.uuid = jobAB.gpu :=
  ⟨cx5_reachable, by decide, by decide, by decide, by decide⟩

/-! ## C2: the set_permission permission gate -/

/-- A state with an OWNER, an ADMIN and a registered USER-level target. -/
def c2State : State :=
  { db := { users :=
      [{ id := "owner", permission_level := 0 },
       { id := "adm", username := some "adm", permission_level := 1 },
       { id := "tgt", username := some "t", full_name := some "T",
         permission_level := 2, public_ssh_key := some "K" }] },
    docker := {} }

/-- The admin's request identity. -/
def admRU : RequestUser :=
  { user_id := "adm", username := some "adm", full_name := "Adm" }

/-- C2: the spec says granting ADMIN fails with PermissionDenied for an
ADMIN actor and succeeds for an OWNER actor.  The code tests
`if not permission_check(...)` although `permission_check` returns `None`
on success and a truthy answer object on failure, so it does the exact
opposite: the OWNER is denied and the ADMIN's grant goes through.  This
theorem evaluates both failing inputs. -/
theorem C2_set_permission_gate_inverted :
    (set_permission c2State ownerRU "tgt" .ADMIN).2 = .PERMISSION_ERROR ∧
    (set_permission c2State admRU "tgt" .ADMIN).2 = .REGISTRATION_SUCCESSFUL "tgt" :=
  ⟨by decide, by decide⟩

/-! ## C9: a successful set_permission replaces the whole user row -/

theorem find?_append_none {α : Type} {p : α → Bool} {l1 l2 : List α}
    (h : l1.find? p = none) : (l1 ++ l2).find? p = l2.find? p := by
  rw [List.find?_append, h, Option.none_or]

theorem find?_append_some {α : Type} {p : α → Bool} {l1 l2 : List α} {a : α}
    (h : l1.find? p = some a) : (l1 ++ l2).find? p = some a := by
  rw [List.find?_append, h]
  rfl

theorem User.find?_register (users : List User) (uid : String)
    (lv : PermissionLevel) :
    User.find? (User.register users uid lv) uid =
      some { id := uid, permission_level := lv.value } := by
  unfold User.register User.find?
  rw [find?_append_none]
  · rw [List.find?_cons_of_pos]
    simp
  · rw [List.find?_eq_none]
    intro x hx
    have := (List.mem_filter.1 hx).2
    simpa using this

/-- C9: when set_permission succeeds on an already-registered target, the
stored row is wholly replaced (SQLite REPLACE semantics of
`User.replace`): besides the permission level, username, full_name and the
stored ssh-key reference are reset to their NULL defaults, not preserved. -/
theorem C9_set_permission_replaces_row (s : State) (ru : RequestUser)
    (uid : String) (lv : PermissionLevel)
    (h : (set_permission s ru uid lv).2 = .REGISTRATION_SUCCESSFUL uid) :
    User.find? (set_permission s ru uid lv).1.db.users uid =
      some { id := uid, username := none, full_name := none,
             permission_level := lv.value, public_ssh_key := none } := by
  unfold set_permission at h ⊢
  dsimp only at h ⊢
  split at h
  · cases h
  · rename_i hc1
    split at h
    · cases h
    · rename_i hc2
      rw [if_neg hc1, if_neg hc2]
      exact User.find?_register _ uid lv

theorem C9_witness :
    (set_permission c2State admRU "tgt" PermissionLevel.ADMIN).2 =
      .REGISTRATION_SUCCESSFUL "tgt" ∧
    User.find? (set_permission c2State admRU "tgt" PermissionLevel.ADMIN).1.db.users
      "tgt" = some { id := "tgt", username := none, full_name := none,
                     permission_level := 1, public_ssh_key := none } :=
  ⟨by decide, C9_set_permission_replaces_row c2State admRU "tgt" .ADMIN (by decide)⟩

/-! ## C10: the ledger records only the first requested GPU -/

/-- C10: a successful dispatch creates exactly one ledger row, whose
single `gpu` column holds the first requested uuid (`job.gpus[0]`); the
full requested uuid list goes only into the created service's `beers.gpus`
label.  The `Job` row has no field that could hold the remaining uuids. -/
theorem C10_ledger_records_first_gpu_only (s : State) (ru : RequestUser)
    (jr : JobRequestModel) (now : Nat) (sid : String)
    (h : (job_add s ru jr now sid).2 = .DISPATCH_OK sid) :
    ∃ worker g0 rest, jr.gpus = g0 :: rest ∧
      (job_add s ru jr now sid).1.db.jobs =
        s.db.jobs ++ [dispatchJob jr now sid worker g0] ∧
      (dispatchJob jr now sid worker g0).gpu = g0 ∧
      (job_add s ru jr now sid).1.docker.services =
        s.docker.services ++ [dispatchService jr now sid worker] ∧
      (dispatchService jr now sid worker).label_gpus =
        some (pyJoin sepGPU (g0 :: rest)) := by
  obtain ⟨-, -, worker, g0, rest, hW, hG, heq⟩ := job_add_ok h
  refine ⟨worker, g0, rest, hG, ?_, rfl, ?_, ?_⟩
  · rw [heq]
  · rw [heq]
  · show some (pyJoin sepGPU jr.gpus) = some (pyJoin sepGPU (g0 :: rest))
    rw [hG]

/-- A dispatch request pinning two GPUs. -/
def jr2 : JobRequestModel :=
  { user_id := "u1", image := "img", worker_hostname := "h1",
    expected_duration := 2, gpus := ["AAA", "BBB"] }

theorem C10_witness :
    (job_add st4 u1RU jr2 100 "svc1").2 = .DISPATCH_OK "svc1" ∧
    ∃ worker g0 rest, jr2.gpus = g0 :: rest ∧
      (job_add st4 u1RU jr2 100 "svc1").1.db.jobs =
        st4.db.jobs ++ [dispatchJob jr2 100 "svc1" worker g0] ∧
      (dispatchJob jr2 100 "svc1" worker g0).gpu = g0 ∧
      (job_add st4 u1RU jr2 100 "svc1").1.docker.services =
        st4.docker.services ++ [dispatchService jr2 100 "svc1" worker] ∧
      (dispatchService jr2 100 "svc1" worker).label_gpus =
        some (pyJoin sepGPU (g0 :: rest)) :=
  ⟨by decide, C10_ledger_records_first_gpu_only st4 u1RU jr2 100 "svc1" (by decide)⟩

/-! ## C4: teardown before the ledger write on removal -/

/-- C4: on removal, the external teardown comes first.  Whenever the call
does not succeed — the teardown raising included — the jobs table is left
completely unchanged; on success the removed service existed, is gone, and
only then is the found job's `end_time` stamped with the current time. -/
theorem C4_teardown_before_stamp (s : State) (ru : RequestUser) (jid : String)
    (now : Nat) :
    ((job_remove s ru jid now).2 ≠ .JOB_REMOVE_OK →
      (job_remove s ru jid now).1.db.jobs = s.db.jobs) ∧
    ((job_remove s ru jid now).2 = .JOB_REMOVE_OK →
      ∃ job, s.db.jobs.find? (fun j => j.service == jid) = some job ∧
        (∃ sv ∈ s.docker.services, sv.id = job.service) ∧
        (job_remove s ru jid now).1.db.jobs = s.db.jobs.map (fun j =>
          if j.service == job.service then { j with end_time := some now } else j) ∧
        (job_remove s ru jid now).1.docker.services =
          s.docker.services.filter (fun sv => sv.id ≠ job.service)) := by
  constructor
  · intro hne
    rcases job_remove_cases s ru jid now with ⟨hjobs, -⟩ | hok
    · exact hjobs
    · exact absurd hok hne
  · intro hok
    obtain ⟨user, job, hU, hJ, hperm, hany, heq⟩ := job_remove_ok hok
    obtain ⟨sv, hsv, hbeq⟩ := List.any_eq_true.1 hany
    refine ⟨job, hJ, ⟨sv, hsv, by simpa using hbeq⟩, ?_, ?_⟩
    · rw [heq]
    · rw [heq]

theorem C4_witness :
    (job_remove st5 u1RU "svc1" 200).2 = .JOB_REMOVE_OK ∧
    (∃ job, st5.db.jobs.find? (fun j => j.service == "svc1") = some job ∧
      (∃ sv ∈ st5.docker.services, sv.id = job.service) ∧
      (job_remove st5 u1RU "svc1" 200).1.db.jobs = st5.db.jobs.map (fun j =>
        if j.service == job.service then { j with end_time := some 200 } else j) ∧
      (job_remove st5 u1RU "svc1" 200).1.docker.services =
        st5.docker.services.filter (fun sv => sv.id ≠ job.service)) :=
  ⟨by decide, (C4_teardown_before_stamp st5 u1RU "svc1" 200).2 (by decide)⟩

/-! ## C7: dispatch by an unregistered user -/

/-- The fresh-deployment state used as the C7 counterexample: only the
bootstrap owner exists and its username column is NULL. -/
def c7State : State := initState "owner"

/-- An unregistered requester. -/
def unregRU : RequestUser :=
  { user_id := "u9", username := some "nn", full_name := "N" }

/-- A dispatch request from the unregistered user. -/
def jr7 : JobRequestModel :=
  { user_id := "u9", image := "im", worker_hostname := "h1",
    expected_duration := 1, gpus := ["AAA"] }

/-- C7 counterexample: on a fresh deployment the only admin-or-better row
(the bootstrap owner) has no username, so the NotRegistered answer carries
an empty admins payload — the claimed non-empty admin list does not hold —
while no Job row is created. -/
theorem C7_counterexample :
    (job_add c7State unregRU jr7 0 "s0").2 = .NOT_REGISTERED_admins "" ∧
    (job_add c7State unregRU jr7 0 "s0").1.db.jobs = c7State.db.jobs :=
  ⟨by decide, by decide⟩

/-- C7 (amended): a dispatch by an unregistered user returns NotRegistered
carrying the formatted list of admins that have a username set — possibly
empty — and neither a Job row nor a service is created. -/
theorem C7_unregistered_dispatch (s : State) (ru : RequestUser)
    (jr : JobRequestModel) (now : Nat) (sid : String)
    (h : User.is_registered s.db.users ru.user_id = false) :
    (job_add s ru jr now sid).2 = .NOT_REGISTERED_admins
      (admins_display (User.update_details s.db.users ru.user_id ru.username
        ru.full_name)) ∧
    (job_add s ru jr now sid).1.db.jobs = s.db.jobs ∧
    (job_add s ru jr now sid).1.docker.services = s.docker.services := by
  have hpc : (permission_check s ru .USER).2 = some (.NOT_REGISTERED_admins
      (admins_display (User.update_details s.db.users ru.user_id ru.username
        ru.full_name))) := by
    unfold permission_check
    dsimp only
    rw [User.is_registered_update_details, h]
    rfl
  unfold job_add
  dsimp only
  simp [hpc]
  exact ⟨rfl, rfl⟩

theorem C7_witness :
    User.is_registered c7State.db.users unregRU.user_id = false ∧
    ((job_add c7State unregRU jr7 0 "s0").2 = .NOT_REGISTERED_admins
      (admins_display (User.update_details c7State.db.users unregRU.user_id
        unregRU.username unregRU.full_name)) ∧
    (job_add c7State unregRU jr7 0 "s0").1.db.jobs = c7State.db.jobs ∧
    (job_add c7State unregRU jr7 0 "s0").1.docker.services =
      c7State.docker.services) :=
  ⟨by decide, C7_unregistered_dispatch c7State unregRU jr7 0 "s0" (by decide)⟩

/-! ## C5: hostname re-registration under a different join identity -/

/-- A worker row whose stored swarm identity is join-A. -/
def c5Worker : Worker :=
  { hostname := "w1", node_id := some "join-A", ip := some "1.1.1.1",
    local_nfs_root := none, info := "old" }

/-- A database holding that row. -/
def c5DB : DB := { workers := [c5Worker] }

/-- A registration payload for the same hostname (the payload carries no
join identity at all). -/
def c5WM : WorkerModel :=
  { hostname := "w1", external_ip := some "2.2.2.2", gpus := [], info := "new" }

/-- C5 counterexample: re-registering hostname w1 does not fail — there is
no WorkerCollision anywhere in the code and the stored join identity is
never compared — and the original row is NOT left unchanged: its ip and
info are overwritten in place. -/
theorem C5_counterexample :
    (Worker.register c5DB c5WM).1.workers ≠ c5DB.workers ∧
    (Worker.register c5DB c5WM).2 =
      { hostname := "w1", node_id := some "join-A", ip := some "2.2.2.2",
        local_nfs_root := none, info := "new" } :=
  ⟨by decide, by decide⟩

/-- C5 (amended): registering a hostname that is already stored always
succeeds — `Worker.register` never consults any join identity and no
WorkerCollision error exists — and overwrites the stored row's ip, info and
storage root in place (hostname and node_id preserved), creating no new
row. -/
theorem C5_reregistration_overwrites (db : DB) (wm : WorkerModel) (w : Worker)
    (h : db.workers.find? (fun x => x.hostname == wm.hostname) = some w) :
    (Worker.register db wm).2 =
      { w with ip := wm.external_ip, info := wm.info,
               local_nfs_root := wm.local_nfs_root } ∧
    (Worker.register db wm).1.workers = db.workers.map (fun x =>
      if x.hostname == wm.hostname then
        { w with ip := wm.external_ip, info := wm.info,
                 local_nfs_root := wm.local_nfs_root }
      else x) ∧
    (Worker.register db wm).1.workers.length = db.workers.length := by
  unfold Worker.register
  rw [h]
  dsimp only
  refine ⟨rfl, ?_, ?_⟩
  · rw [foldl_register_workers]
  · rw [foldl_register_workers]
    exact List.length_map _ _

theorem C5_witness :
    c5DB.workers.find? (fun x => x.hostname == c5WM.hostname) = some c5Worker ∧
    ((Worker.register c5DB c5WM).2 =
      { c5Worker with ip := c5WM.external_ip, info := c5WM.info,
                      local_nfs_root := c5WM.local_nfs_root } ∧
    (Worker.register c5DB c5WM).1.workers = c5DB.workers.map (fun x =>
      if x.hostname == c5WM.hostname then
        { c5Worker with ip := c5WM.external_ip, info := c5WM.info,
                        local_nfs_root := c5WM.local_nfs_root }
      else x) ∧
    (Worker.register c5DB c5WM).1.workers.length = c5DB.workers.length) :=
  ⟨by decide, C5_reregistration_overwrites c5DB c5WM c5Worker (by decide)⟩

/-! ## C6: idempotent worker registration -/

theorem find?_map_update (l : List Worker) (h : String) (w w' : Worker)
    (hfind : l.find? (fun x => x.hostname == h) = some w)
    (hw' : (w'.hostname == h) = true) :
    (l.map (fun x => if x.hostname == h then w' else x)).find?
      (fun x => x.hostname == h) = some w' := by
  induction l with
  | nil => cases hfind
  | cons a t ih =>
      by_cases ha : (a.hostname == h) = true
      · rw [List.map_cons, if_pos ha]
        simp only [List.find?_cons, hw']
      · have ha' : (a.hostname == h) = false := by simpa using ha
        simp only [List.find?_cons, ha'] at hfind
        rw [List.map_cons, if_neg ha]
        simp only [List.find?_cons, ha']
        exact ih hfind

theorem map_update_id (l : List Worker) (h : String) (w' : Worker)
    (hall : ∀ x ∈ l, (x.hostname == h) = true → x = w') :
    l.map (fun x => if x.hostname == h then w' else x) = l := by
  induction l with
  | nil => rfl
  | cons a t ih =>
      rw [List.map_cons, ih (fun x hx hm => hall x (List.mem_cons_of_mem _ hx) hm)]
      by_cases ha : (a.hostname == h) = true
      · rw [if_pos ha, (hall a (List.mem_cons_self _ _) ha).symm]
      · rw [if_neg ha]

theorem GPU.register_present (db : DB) (gm : NvidiaGPU) (wid : String) :
    (((GPU.register db gm wid).gpus).find?
      (fun g => g.worker == wid && g.uuid == gm.uuid)).isSome = true := by
  unfold GPU.register
  split
  · rename_i g hfind
    rw [hfind]
    rfl
  · rename_i hfind
    dsimp only
    rw [find?_append_none hfind]
    simp [List.find?_cons]

theorem GPU.register_present_mono (db : DB) (gm' : NvidiaGPU) (wid' : String)
    {p : GPU → Bool} (h : (db.gpus.find? p).isSome = true) :
    (((GPU.register db gm' wid').gpus).find? p).isSome = true := by
  obtain ⟨new, hgp, -⟩ := GPU.register_gpus db gm' wid'
  rw [hgp]
  obtain ⟨a, ha⟩ := Option.isSome_iff_exists.1 h
  rw [find?_append_some ha]
  rfl

theorem foldl_register_present_mono (gs : List NvidiaGPU) (db : DB) (wid : String)
    {p : GPU → Bool} (h : (db.gpus.find? p).isSome = true) :
    (((gs.foldl (fun d g => GPU.register d g wid) db).gpus).find? p).isSome = true := by
  induction gs generalizing db with
  | nil => exact h
  | cons g t ih =>
      rw [List.foldl_cons]
      exact ih _ (GPU.register_present_mono db g wid h)

theorem foldl_register_present (gs : List NvidiaGPU) (db : DB) (wid : String) :
    ∀ gm ∈ gs, (((gs.foldl (fun d g => GPU.register d g wid) db).gpus).find?
      (fun g => g.worker == wid && g.uuid == gm.uuid)).isSome = true := by
  induction gs generalizing db with
  | nil => intro gm hm; cases hm
  | cons g t ih =>
      intro gm hm
      rw [List.foldl_cons]
      rcases List.mem_cons.1 hm with hm' | hm'
      · subst hm'
        exact foldl_register_present_mono t _ wid (GPU.register_present db gm wid)
      · exact ih _ gm hm'

theorem GPU.register_no_op (db : DB) (gm : NvidiaGPU) (wid : String)
    (h : (db.gpus.find? (fun g => g.worker == wid && g.uuid == gm.uuid)).isSome = true) :
    GPU.register db gm wid = db := by
  unfold GPU.register
  obtain ⟨a, ha⟩ := Option.isSome_iff_exists.1 h
  rw [ha]

theorem foldl_register_no_op (gs : List NvidiaGPU) (db : DB) (wid : String)
    (h : ∀ gm ∈ gs, (db.gpus.find?
      (fun g => g.worker == wid && g.uuid == gm.uuid)).isSome = true) :
    gs.foldl (fun d g => GPU.register d g wid) db = db := by
  induction gs with
  | nil => rfl
  | cons g t ih =>
      rw [List.foldl_cons, GPU.register_no_op db g wid (h g (List.mem_cons_self _ _))]
      exact ih (fun gm hm => h gm (List.mem_cons_of_mem _ hm))

theorem Worker.register_found (db : DB) (wm : WorkerModel) :
    (Worker.register db wm).1.workers.find? (fun x => x.hostname == wm.hostname) =
      some (Worker.register db wm).2 ∧
    (Worker.register db wm).2.ip = wm.external_ip ∧
    (Worker.register db wm).2.info = wm.info ∧
    (Worker.register db wm).2.local_nfs_root = wm.local_nfs_root := by
  unfold Worker.register
  split
  · rename_i w hfind
    dsimp only
    rw [foldl_register_workers]
    refine ⟨?_, rfl, rfl, rfl⟩
    exact find?_map_update db.workers wm.hostname w _ hfind
      (by simpa using List.find?_some hfind)
  · rename_i hfind
    dsimp only
    rw [foldl_register_workers]
    refine ⟨?_, rfl, rfl, rfl⟩
    rw [find?_append_none hfind]
    simp [List.find?_cons]

theorem Worker.register_matchers (db : DB) (wm : WorkerModel) :
    ∀ x ∈ (Worker.register db wm).1.workers, (x.hostname == wm.hostname) = true →
      x = (Worker.register db wm).2 := by
  unfold Worker.register
  split
  · rename_i w hfind
    dsimp only
    rw [foldl_register_workers]
    intro x hx hmatch
    obtain ⟨y, hy, hyx⟩ := List.mem_map.1 hx
    by_cases hym : (y.hostname == wm.hostname) = true
    · rw [if_pos hym] at hyx
      exact hyx.symm
    · rw [if_neg hym] at hyx
      rw [← hyx] at hmatch
      exact absurd hmatch hym
  · rename_i hfind
    dsimp only
    rw [foldl_register_workers]
    intro x hx hmatch
    rcases List.mem_append.1 hx with hx' | hx'
    · exact absurd hmatch (by simpa using List.find?_eq_none.1 hfind x hx')
    · simpa using hx'

theorem Worker.register_gpus_present (db : DB) (wm : WorkerModel) :
    ∀ gm ∈ wm.gpus, ((Worker.register db wm).1.gpus.find?
      (fun g => g.worker == (Worker.register db wm).2.hostname &&
        g.uuid == gm.uuid)).isSome = true := by
  unfold Worker.register
  split <;>
    · dsimp only
      exact fun gm hm => foldl_register_present wm.gpus _ _ gm hm

theorem Worker.register_of_found (db : DB) (wm : WorkerModel) (w : Worker)
    (hfind : db.workers.find? (fun x => x.hostname == wm.hostname) = some w)
    (hip : w.ip = wm.external_ip) (hinfo : w.info = wm.info)
    (hnfs : w.local_nfs_root = wm.local_nfs_root)
    (hmatch : ∀ x ∈ db.workers, (x.hostname == wm.hostname) = true → x = w)
    (hpres : ∀ gm ∈ wm.gpus, (db.gpus.find?
      (fun g => g.worker == w.hostname && g.uuid == gm.uuid)).isSome = true) :
    Worker.register db wm = (db, w) := by
  unfold Worker.register
  rw [hfind]
  dsimp only
  have hw' : ({ w with ip := wm.external_ip, info := wm.info, local_nfs_root := wm.local_nfs_root } : Worker) = w := by
    rw [← hip, ← hinfo, ← hnfs]
  rw [hw', map_update_id db.workers wm.hostname w hmatch]
  have hdb : ({ db with workers := db.workers } : DB) = db := rfl
  rw [hdb, foldl_register_no_op wm.gpus db w.hostname hpres]

theorem filter_map_update_length (l : List Worker) (h : String) (w' : Worker)
    (hw' : (w'.hostname == h) = true) :
    ((l.map (fun x => if x.hostname == h then w' else x)).filter
      (fun x => x.hostname == h)).length =
    (l.filter (fun x => x.hostname == h)).length := by
  induction l with
  | nil => rfl
  | cons a t ih =>
      rw [List.map_cons]
      by_cases ha : (a.hostname == h) = true
      · rw [if_pos ha]
        simp only [List.filter_cons, hw', ha, if_true, List.length_cons, ih]
      · have ha' : (a.hostname == h) = false := by simpa using ha
        rw [if_neg ha]
        simp only [List.filter_cons, ha', Bool.false_eq_true, if_false]
        exact ih

theorem filter_length_one_of_found (l : List Worker) (h : String) (w : Worker)
    (hfind : l.find? (fun x => x.hostname == h) = some w)
    (hnodup : (l.map (fun x => x.hostname)).Nodup) :
    (l.filter (fun x => x.hostname == h)).length = 1 := by
  induction l with
  | nil => cases hfind
  | cons a t ih =>
      rw [List.map_cons, List.nodup_cons] at hnodup
      by_cases ha : (a.hostname == h) = true
      · have hnil : t.filter (fun x => x.hostname == h) = [] := by
          apply List.filter_eq_nil_iff.2
          intro x hx hxh
          apply hnodup.1
          have h1 : x.hostname = h := by simpa using hxh
          have h2 : a.hostname = h := by simpa using ha
          rw [h2, ← h1]
          exact List.mem_map_of_mem _ hx
        simp [List.filter_cons, ha, hnil]
      · have ha' : (a.hostname == h) = false := by simpa using ha
        simp only [List.find?_cons, ha'] at hfind
        simp only [List.filter_cons, ha', Bool.false_eq_true, if_false]
        exact ih hfind hnodup.2

theorem Worker.register_count (db : DB) (wm : WorkerModel)
    (hnodup : (db.workers.map (fun w => w.hostname)).Nodup) :
    ((Worker.register db wm).1.workers.filter
      (fun x => x.hostname == wm.hostname)).length = 1 := by
  unfold Worker.register
  split
  · rename_i w hfind
    dsimp only
    rw [foldl_register_workers]
    rw [filter_map_update_length db.workers wm.hostname _
      (by simpa using List.find?_some hfind)]
    exact filter_length_one_of_found db.workers wm.hostname w hfind hnodup
  · rename_i hfind
    dsimp only
    rw [foldl_register_workers, List.filter_append]
    have h1 : db.workers.filter (fun x => x.hostname == wm.hostname) = [] :=
      List.filter_eq_nil_iff.2 (fun x hx => by
        simpa using List.find?_eq_none.1 hfind x hx)
    rw [h1, List.nil_append]
    simp [List.filter_cons]

/-- C6: registering the same worker payload twice is idempotent — the
second call is the identity on the whole database — the worker table then
holds exactly one row for the hostname, and the first registration only
appends GPU rows, leaving every pre-existing GPU row untouched. -/
theorem C6_worker_registration_idempotent (db : DB) (wm : WorkerModel)
    (hnodup : (db.workers.map (fun w => w.hostname)).Nodup) :
    Worker.register (Worker.register db wm).1 wm = Worker.register db wm ∧
    ((Worker.register db wm).1.workers.filter
      (fun x => x.hostname == wm.hostname)).length = 1 ∧
    ∃ new, (Worker.register db wm).1.gpus = db.gpus ++ new := by
  refine ⟨?_, Worker.register_count db wm hnodup, ?_⟩
  · obtain ⟨hfind, hip, hinfo, hnfs⟩ := Worker.register_found db wm
    exact Worker.register_of_found _ wm _ hfind hip hinfo hnfs
      (Worker.register_matchers db wm) (Worker.register_gpus_present db wm)
  · obtain ⟨new, hg, -⟩ := Worker.register_gpus_appended db wm
    exact ⟨new, hg⟩

theorem C6_witness :
    ((c5DB.workers.map (fun w => w.hostname)).Nodup) ∧
    (Worker.register (Worker.register c5DB c5WM).1 c5WM = Worker.register c5DB c5WM ∧
    ((Worker.register c5DB c5WM).1.workers.filter
      (fun x => x.hostname == c5WM.hostname)).length = 1 ∧
    ∃ new, (Worker.register c5DB c5WM).1.gpus = c5DB.gpus ++ new) :=
  ⟨by decide, C6_worker_registration_idempotent c5DB c5WM (by decide)⟩

/-! ## C8: GPU busy-state is derived, never persisted -/

/-- Overwrite the dormant `current_job` column of every GPU row with
arbitrary values: the schema column exists but nothing reads it. -/
def setCurrentJobs (s : State) (f : GPU → Option String) : State :=
  let gpus' := s.db.gpus.map (fun g => { g with current_job := f g })
  { s with db := { s.db with gpus := gpus' } }

theorem groupRuns_map (l : List GPU) (f : GPU → Option String) :
    groupRuns (l.map (fun g => { g with current_job := f g })) =
      (groupRuns l).map (fun p => (p.1, p.2.map
        (fun g => { g with current_job := f g }))) := by
  induction l with
  | nil => rfl
  | cons g rest ih =>
      rw [List.map_cons]
      unfold groupRuns
      rw [ih]
      cases groupRuns rest with
      | nil => rfl
      | cons p t =>
          obtain ⟨k, grp⟩ := p
          dsimp only [List.map_cons]
          split <;> rfl

theorem dictUpsert_map (acc : List (String × List GPU)) (k : String)
    (v : List GPU) (m : List GPU → List GPU) :
    dictUpsert (acc.map (fun p => (p.1, m p.2))) k (m v) =
      (dictUpsert acc k v).map (fun p => (p.1, m p.2)) := by
  induction acc with
  | nil => rfl
  | cons p t ih =>
      obtain ⟨k', v'⟩ := p
      rw [List.map_cons]
      unfold dictUpsert
      dsimp only
      split
      · rfl
      · rw [List.map_cons, ih]

theorem pythonDict_foldl_map (ps acc : List (String × List GPU))
    (m : List GPU → List GPU) :
    (ps.map (fun p => (p.1, m p.2))).foldl
        (fun a p => dictUpsert a p.1 p.2) (acc.map (fun p => (p.1, m p.2))) =
      (ps.foldl (fun a p => dictUpsert a p.1 p.2) acc).map
        (fun p => (p.1, m p.2)) := by
  induction ps generalizing acc with
  | nil => rfl
  | cons p t ih =>
      rw [List.map_cons, List.foldl_cons, List.foldl_cons]
      rw [dictUpsert_map acc p.1 p.2 m]
      exact ih _

theorem by_workers_map (ids : List String) (l : List GPU)
    (f : GPU → Option String) :
    GPU.by_workers ids (l.map (fun g => { g with current_job := f g })) =
      (GPU.by_workers ids l).map (fun p => (p.1, p.2.map
        (fun g => { g with current_job := f g }))) := by
  unfold GPU.by_workers pythonDict
  rw [List.filter_map, groupRuns_map]
  have hco : ((fun g : GPU => ids.contains g.worker) ∘
      (fun g => { g with current_job := f g })) =
      fun g : GPU => ids.contains g.worker := by
    funext g; rfl
  rw [hco]
  exact pythonDict_foldl_map _ [] _

theorem availableUuids_setCurrentJobs (s : State) (f : GPU → Option String) :
    availableUuids (setCurrentJobs s f) = availableUuids s := by
  unfold availableUuids availableResources setCurrentJobs
  dsimp only
  rw [by_workers_map]
  simp only [List.map_map]
  apply List.map_congr_left
  intro p hp
  dsimp only [Function.comp]
  refine congrArg (fun l => (p.1, l)) ?_
  rw [List.filter_map]
  have hq : ((fun g : GPU =>
      !((busy_gpus s.docker.services).contains g.uuid)) ∘
      (fun g => { g with current_job := f g })) =
      fun g : GPU => !((busy_gpus s.docker.services).contains g.uuid) := by
    funext g; rfl
  rw [hq, List.map_map]
  rfl

/-- C8: GPU busy-state is never persisted.  On every reachable state the
schema's dormant `current_job` column is NULL in every GPU row (no
operation ever assigns it), and the free/busy status `list_resources`
reports is insensitive to that column: overwriting it arbitrarily leaves
the listed per-worker uuids unchanged, because busy-ness is recomputed at
read time from the live service labels alone. -/
theorem C8_busy_state_never_persisted {s : State} (hs : Reachable s) :
    (∀ g ∈ s.db.gpus, g.current_job = none) ∧
    ∀ f, availableUuids (setCurrentJobs s f) = availableUuids s :=
  ⟨(reachable_inv hs).2, fun f => availableUuids_setCurrentJobs s f⟩

theorem C8_witness :
    (∀ g ∈ st5.db.gpus, g.current_job = none) ∧
    availableUuids (setCurrentJobs st5 (fun g => some g.uuid)) =
      availableUuids st5 :=
  ⟨(C8_busy_state_never_persisted st5_reachable).1,
   (C8_busy_state_never_persisted st5_reachable).2 (fun g => some g.uuid)⟩

/-! ## C3: dispatch/remove allocation round-trip -/

theorem permission_check_snd_none_of (s : State) (ru : RequestUser)
    (L : PermissionLevel)
    (h1 : (L == PermissionLevel.USER && !(User.is_registered s.db.users ru.user_id)) = false)
    (h2 : User.permission_check s.db.users ru.user_id L.value = true) :
    (permission_check s ru L).2 = none := by
  unfold permission_check
  dsimp only
  rw [User.is_registered_update_details, User.permission_check_update_details,
    h1, h2]
  rfl

theorem permission_check_snd_none_elim (s : State) (ru : RequestUser)
    (L : PermissionLevel) (h : (permission_check s ru L).2 = none) :
    (L == PermissionLevel.USER && !(User.is_registered s.db.users ru.user_id)) = false ∧
    User.permission_check s.db.users ru.user_id L.value = true := by
  unfold permission_check at h
  dsimp only at h
  rw [User.is_registered_update_details, User.permission_check_update_details] at h
  split at h
  · cases h
  · split at h
    · cases h
    · rename_i hc1 hc2
      constructor
      · simpa using hc1
      · simpa using hc2

theorem availableResources_eq_of (s t : State)
    (hn : s.docker.nodes = t.docker.nodes)
    (hs : s.docker.services = t.docker.services)
    (hg : s.db.gpus = t.db.gpus) :
    availableResources s = availableResources t := by
  unfold availableResources
  rw [hn, hs, hg]

theorem job_remove_eval (users : List User) (workers : List Worker)
    (gpus : List GPU) (jobs : List Job) (nodes : List DockerNode)
    (services : List DockerService) (configs : List DockerConfig)
    (ru : RequestUser) (jid : String) (now : Nat) (user : User) (job : Job)
    (hreg : (PermissionLevel.USER == PermissionLevel.USER &&
      !(User.is_registered users ru.user_id)) = false)
    (hpc2 : User.permission_check users ru.user_id PermissionLevel.USER.value = true)
    (hU : User.find? (User.update_details users ru.user_id ru.username
      ru.full_name) ru.user_id = some user)
    (hJ : jobs.find? (fun j => j.service == jid) = some job)
    (hperm : (job.user == user.id ||
      user.permission_level ≤ PermissionLevel.ADMIN.value) = true)
    (hany : services.any (fun sv => sv.id == job.service) = true) :
    job_remove
      { db := { users := users, workers := workers, gpus := gpus, jobs := jobs },
        docker := { nodes := nodes, services := services, configs := configs } }
      ru jid now =
    ({ db := { users := User.update_details users ru.user_id ru.username
                 ru.full_name,
               workers := workers, gpus := gpus,
               jobs := jobs.map (fun j => if j.service == job.service then
                 { j with end_time := some now } else j) },
       docker := { nodes := nodes,
                   services := services.filter (fun sv => sv.id ≠ job.service),
                   configs := configs } },
     .JOB_REMOVE_OK) := by
  have hpcR : (permission_check
      { db := { users := users, workers := workers, gpus := gpus, jobs := jobs },
        docker := { nodes := nodes, services := services, configs := configs } }
      ru .USER).2 = none :=
    permission_check_snd_none_of _ ru .USER hreg hpc2
  unfold job_remove
  dsimp only
  simp only [hpcR, permission_check_users, permission_check_jobs,
    permission_check_docker]
  try dsimp only
  simp only [hU, hJ]
  rw [if_pos hperm, if_pos hany]
  rfl

/-- C3: a successful dispatch followed immediately by a removal of the
created job id by the same user succeeds and restores the resource
catalog: `list_resources` computes exactly the same per-worker available
GPUs as before the dispatch, so the pinned GPU is listed again wherever it
was listed before.  The freshness side conditions say the docker-assigned
service id did not already occur. -/
theorem C3_dispatch_remove_roundtrip (s : State) (ru : RequestUser)
    (jr : JobRequestModel) (now now2 : Nat) (sid : String)
    (hadd : (job_add s ru jr now sid).2 = .DISPATCH_OK sid)
    (hown : jr.user_id = ru.user_id)
    (hsv : ∀ sv ∈ s.docker.services, sv.id ≠ sid)
    (hjb : ∀ j ∈ s.db.jobs, j.service ≠ sid) :
    (job_remove (job_add s ru jr now sid).1 ru sid now2).2 = .JOB_REMOVE_OK ∧
    availableResources (job_remove (job_add s ru jr now sid).1 ru sid now2).1 =
      availableResources s := by
  obtain ⟨-, hpc, worker, g0, rest, hW, hG, heq⟩ := job_add_ok hadd
  have hpcond := permission_check_snd_none_elim s ru .USER hpc
  have hreg : User.is_registered s.db.users ru.user_id = true := by
    simpa using hpcond.1
  have hreg' : (PermissionLevel.USER == PermissionLevel.USER &&
      !(User.is_registered (User.update_details s.db.users ru.user_id
        ru.username ru.full_name) ru.user_id)) = false := by
    rw [User.is_registered_update_details, hreg]
    rfl
  have hpc2' : User.permission_check (User.update_details s.db.users ru.user_id
      ru.username ru.full_name) ru.user_id PermissionLevel.USER.value = true := by
    rw [User.permission_check_update_details]
    exact hpcond.2
  have hregU2 : User.is_registered (User.update_details (User.update_details
      s.db.users ru.user_id ru.username ru.full_name) ru.user_id ru.username
      ru.full_name) ru.user_id = true := by
    rw [User.is_registered_update_details, User.is_registered_update_details]
    exact hreg
  obtain ⟨user2, hU2⟩ := Option.isSome_iff_exists.1 hregU2
  have hid2 : user2.id = ru.user_id := User.find?_eq_some_id hU2
  have hJ2 : (s.db.jobs ++ [dispatchJob jr now sid worker g0]).find?
      (fun j => j.service == sid) = some (dispatchJob jr now sid worker g0) := by
    rw [find?_append_none (List.find?_eq_none.2
      (fun j hj => by simpa using hjb j hj))]
    simp [List.find?_cons, dispatchJob]
  have hperm2 : ((dispatchJob jr now sid worker g0).user == user2.id ||
      user2.permission_level ≤ PermissionLevel.ADMIN.value) = true := by
    simp [dispatchJob, hown, hid2]
  have hany2 : (s.docker.services ++ [dispatchService jr now sid worker]).any
      (fun sv => sv.id == (dispatchJob jr now sid worker g0).service) = true := by
    apply List.any_eq_true.2
    exact ⟨dispatchService jr now sid worker, by simp,
      by simp [dispatchService, dispatchJob]⟩
  have hrem := job_remove_eval
    (User.update_details s.db.users ru.user_id ru.username ru.full_name)
    s.db.workers s.db.gpus
    (s.db.jobs ++ [dispatchJob jr now sid worker g0])
    s.docker.nodes
    (s.docker.services ++ [dispatchService jr now sid worker])
    s.docker.configs ru sid now2 user2 (dispatchJob jr now sid worker g0)
    hreg' hpc2' hU2 hJ2 hperm2 hany2
  have hfs : (s.docker.services ++ [dispatchService jr now sid worker]).filter
      (fun sv => sv.id ≠ (dispatchJob jr now sid worker g0).service) =
      s.docker.services := by
    have hds : (dispatchJob jr now sid worker g0).service = sid := rfl
    rw [hds, List.filter_append]
    have h1 : s.docker.services.filter (fun sv => sv.id ≠ sid) =
        s.docker.services :=
      List.filter_eq_self.2 (fun sv hsv' => by simpa using hsv sv hsv')
    have h2 : ([dispatchService jr now sid worker].filter
        (fun sv => sv.id ≠ sid)) = [] := by
      simp [dispatchService]
    rw [h1, h2, List.append_nil]
  constructor
  · rw [heq]
    dsimp only
    rw [hrem]
  · rw [heq]
    dsimp only
    rw [hrem]
    dsimp only
    apply availableResources_eq_of
    · rfl
    · exact hfs
    · rfl

theorem C3_witness :
    (job_add st4 u1RU jr1 100 "svc1").2 = .DISPATCH_OK "svc1" ∧
    jr1.user_id = u1RU.user_id ∧
    ((job_remove (job_add st4 u1RU jr1 100 "svc1").1 u1RU "svc1" 200).2 =
      .JOB_REMOVE_OK ∧
    availableResources
      (job_remove (job_add st4 u1RU jr1 100 "svc1").1 u1RU "svc1" 200).1 =
      availableResources st4) :=
  ⟨by decide, by decide,
    C3_dispatch_remove_roundtrip st4 u1RU jr1 100 200 "svc1" (by decide)
      (by decide) (by decide) (by decide)⟩

end Beers
